import Mathlib

/-!
Verification development for the VNPay payment-URL library (`src/vnpay.ts`).

The TypeScript source is shallowly embedded as follows.

* JavaScript runtime values that can occur in the parameter objects are the
  inductive `JVal` (strings, numbers restricted to the integers that actually
  occur, booleans, `null`, `undefined`, and `NaN`, which arises from
  multiplying a non-numeric amount by 100).
* JavaScript objects are association lists `Obj` with key-based lookup,
  assignment, deletion and spread-merge mirroring JS object semantics
  (`objGet`, `objSet`, `objDel`, `objMerge`).  JS objects have unique keys;
  theorems that need uniqueness carry a `Nodup` hypothesis on the key list.
* `URLSearchParams` percent-encoding (application/x-www-form-urlencoded:
  ASCII alphanumerics and `*-._` kept, space becomes `+`, every other
  character becomes `%XX` per UTF-8 byte) is `urlEncode`; its serializer,
  joining `key=value` segments with `&`, is `renderQuery`.
* `Array.prototype.sort` with the ascending `localeCompare` comparator is
  modelled as a stable sort (`List.insertionSort`; ECMAScript sorts are
  stable) by the lexicographic code-point order `charListLE` — for the
  ASCII `vnp_*` keys the default-locale collation and code-point order
  agree.
* `crypto.createHmac('sha512', secret)...digest('hex')` is an external
  Node library call; it is passed in as an oracle `Hmac` argument, exactly
  as the signing is a black box to the source file.
* Promises: the executor of `new Promise` runs synchronously; `resolve`/
  `reject` calls and synchronous throws are recorded in program order in a
  `settles` list, and the promise outcome is the first settle event
  (later calls are no-ops).  The detached `validate(...).then(...)`
  callback of `buildPaymentUrl` is a microtask, so its `reject` always
  runs after the synchronous `resolve` of line 175.
-/

namespace VNPaySpec

/-- JavaScript runtime values occurring in VNPay parameter objects. -/
inductive JVal where
  | str (s : String)
  | num (n : Int)
  | bool (b : Bool)
  | null
  | undefined
  | nan
deriving DecidableEq, Repr

/-- JS truthiness test `!value` used by the skip-empty guard (lines 161 and
215 of the source): `null`, `undefined`, `""`, `0`, `false` and `NaN` are
falsy. -/
def isFalsy : JVal → Bool
  | .str s => s == ""
  | .num n => n == 0
  | .bool b => !b
  | .null => true
  | .undefined => true
  | .nan => true

/-- JS `value.toString()` as applied on line 165/219 to values that passed
the truthiness guard.  Integers print in decimal with a leading `-` when
negative, exactly as `Number.prototype.toString`.  The `null`/`undefined`
branches are never reached behind the guard (calling `.toString()` on them
throws, which `toStringOrThrow` models); they are given the values of the
JS `String(...)` coercion. -/
def jvalRender : JVal → String
  | .str s => s
  | .num n => toString n
  | .bool b => cond b "true" "false"
  | .null => "null"
  | .undefined => "undefined"
  | .nan => "NaN"

/-- JS `value.toString()` including its behavior on `null`/`undefined`:
property access on them throws a `TypeError` (line 205 of the source does
exactly this when `vnp_ResponseCode` is missing). -/
def toStringOrThrow : JVal → Option String
  | .null => none
  | .undefined => none
  | v => some (jvalRender v)

/-- JavaScript objects as association lists of key/value pairs. -/
abbrev Obj := List (String × JVal)

/-- JS property read `o[k]`: the first entry with the key, `undefined` when
absent. -/
def objGet (o : Obj) (k : String) : JVal :=
  match o.find? (fun kv => kv.1 == k) with
  | some kv => kv.2
  | none => .undefined

/-- JS property write `o[k] = v`: overwrite in place when present, append
otherwise. -/
def objSet (o : Obj) (k : String) (v : JVal) : Obj :=
  if (o.find? (fun kv => kv.1 == k)).isSome then
    o.map (fun kv => if kv.1 == k then (k, v) else kv)
  else
    o ++ [(k, v)]

/-- JS `delete o[k]`. -/
def objDel (o : Obj) (k : String) : Obj :=
  o.filter (fun kv => !(kv.1 == k))

/-- Value taken by a `base` entry under the spread: `over`'s value when
`over` also has the key, the entry itself otherwise. -/
def mergeBaseEntry (over : Obj) (kv : String × JVal) : String × JVal :=
  match over.find? (fun kv2 => kv2.1 == kv.1) with
  | some kv2 => (kv.1, kv2.2)
  | none => kv

/-- Is an `over` entry's key new (absent from `base`)? -/
def mergeKeepNew (base : Obj) (kv2 : String × JVal) : Bool :=
  (base.find? (fun kv => kv.1 == kv2.1)).isNone

/-- JS object spread `\x7b...base, ...over\x7d`: keys of `base` keep their
position (with `over`'s value on conflict), keys only in `over` are
appended in order. -/
def objMerge (base over : Obj) : Obj :=
  base.map (mergeBaseEntry over) ++ over.filter (mergeKeepNew base)

/-- Lexicographic code-point order on character lists: the model of the
ascending `localeCompare` comparator of lines 158/212 (identical to the
default-locale collation on the ASCII `vnp_*` keys). -/
def charListLE : List Char → List Char → Bool
  | [], _ => true
  | _ :: _, [] => false
  | a :: as, b :: bs =>
    if a.toNat < b.toNat then true
    else if b.toNat < a.toNat then false
    else charListLE as bs

/-- Comparator relation on object entries: ascending by key. -/
def entryLE (x y : String × JVal) : Prop := charListLE x.1.data y.1.data = true

instance : DecidableRel entryLE := fun _ _ => instDecidableEqBool _ _

/-- Comparator relation on rendered (string-valued) entries: ascending by
key. -/
def sentryLE (x y : String × String) : Prop := charListLE x.1.data y.1.data = true

instance : DecidableRel sentryLE := fun _ _ => instDecidableEqBool _ _

/-- The two VNPay locales (TS enum `VnpLocale`). -/
inductive VnpLocale where
  | vn
  | en
deriving DecidableEq, Repr

/-- Enum value as the string stored in the merged data (`vn` / `en`). -/
def localeCode : VnpLocale → String
  | .vn => "vn"
  | .en => "en"

/-- Modelled from the spec: `ConfigVnpayDTO` (file `dtos`, not under
`src/`) is the immutable holder of merchant code, shared secret, gateway
base URL and default return URL.  The three validated fields are strings
where `""` stands for a missing/empty value (both are JS-falsy, and the
source only ever tests them with `!x`). -/
structure ConfigVnpayDTO where
  secureSecret : String
  tmnCode : String
  paymentGateway : String
  returnUrl : JVal
deriving DecidableEq, Repr

/-- A `VNPay` instance: the global config plus the default-field state
(`vnp_Version`, `vnp_Command`, `vnp_CurrCode`, `vnp_Locale`,
`vnp_OrderType`). -/
structure VNPay where
  globalConfig : ConfigVnpayDTO
  vnp_Version : String
  vnp_Command : String
  vnp_CurrCode : String
  vnp_Locale : VnpLocale
  vnp_OrderType : String
deriving DecidableEq, Repr

/-- The `configDefault` getter (lines 80-88). -/
def configDefault (v : VNPay) : Obj :=
  [("vnp_Version", .str v.vnp_Version),
   ("vnp_Command", .str v.vnp_Command),
   ("vnp_CurrCode", .str v.vnp_CurrCode),
   ("vnp_Locale", .str (localeCode v.vnp_Locale)),
   ("vnp_OrderType", .str v.vnp_OrderType)]

/-- `validateGlobalConfig` (lines 110-122): first falsy field among
secret, merchant code, gateway yields its error message. -/
def validateGlobalConfig (v : VNPay) : Option String :=
  if v.globalConfig.secureSecret == "" then some "Missing secure secret"
  else if v.globalConfig.tmnCode == "" then some "Missing merchant code"
  else if v.globalConfig.paymentGateway == "" then some "Missing payment gateway"
  else none

/-- Characters kept verbatim by application/x-www-form-urlencoded
percent-encoding: ASCII alphanumerics and `*`, `-`, `.`, `_`. -/
def urlSafeChar (c : Char) : Bool :=
  ('0' ≤ c && c ≤ '9') || ('A' ≤ c && c ≤ 'Z') || ('a' ≤ c && c ≤ 'z') ||
    c == '*' || c == '-' || c == '.' || c == '_'

/-- Uppercase hexadecimal digits used by percent-escapes. -/
def hexUpperChars : List Char := "0123456789ABCDEF".data

/-- Uppercase hexadecimal digit of a value below 16. -/
def hexDigitUpper (n : Nat) : Char := hexUpperChars.getD n '0'

/-- UTF-8 bytes of a code point. -/
def utf8Bytes (c : Char) : List Nat :=
  let n := c.toNat
  if n < 0x80 then [n]
  else if n < 0x800 then [0xC0 + n / 0x40, 0x80 + n % 0x40]
  else if n < 0x10000 then
    [0xE0 + n / 0x1000, 0x80 + n / 0x40 % 0x40, 0x80 + n % 0x40]
  else
    [0xF0 + n / 0x40000, 0x80 + n / 0x1000 % 0x40, 0x80 + n / 0x40 % 0x40, 0x80 + n % 0x40]

/-- Percent-escape of one byte. -/
def encodeByte (b : Nat) : List Char := ['%', hexDigitUpper (b / 16), hexDigitUpper (b % 16)]

/-- Form-url encoding of one character. -/
def encodeChar (c : Char) : List Char :=
  if urlSafeChar c then [c]
  else if c == ' ' then ['+']
  else ((utf8Bytes c).map encodeByte).flatten

/-- `URLSearchParams` encoding of a full string. -/
def urlEncode (s : String) : String := ⟨(s.data.map encodeChar).flatten⟩

/-- Characters of one `key=value` segment of the serialized query. -/
def segChars (kv : String × String) : List Char :=
  (urlEncode kv.1).data ++ '=' :: (urlEncode kv.2).data

/-- Characters of the serialized query: segments joined with `&`
(the string `URLSearchParams` both hashes and emits). -/
def renderQueryChars (ps : List (String × String)) : List Char :=
  List.intercalate ['&'] (ps.map segChars)

/-- The serialized query as a string. -/
def renderQuery (ps : List (String × String)) : String := ⟨renderQueryChars ps⟩

/-- The final URL: gateway base, `?`, serialized query (the source's
`redirectUrl.toString()` for a base without query or fragment). -/
def urlOf (base : String) (ps : List (String × String)) : String :=
  base ++ "?" ++ renderQuery ps

/-- Canonicalization of the build path (lines 157-166): sort entries
ascending by key, drop falsy values, stringify the rest. -/
def buildCanonEntries (o : Obj) : List (String × String) :=
  ((o.insertionSort entryLE).filter (fun kv => !isFalsy kv.2)).map
    (fun kv => (kv.1, jvalRender kv.2))

/-- Canonicalization of the verify path (lines 211-220), textually the
same loop as the build path. -/
def verifyCanonEntries (o : Obj) : List (String × String) :=
  ((o.insertionSort entryLE).filter (fun kv => !isFalsy kv.2)).map
    (fun kv => (kv.1, jvalRender kv.2))

/-- Modelled from the spec: the schema-validation capability
(`class-validator`'s `validate` on `BuildPaymentUrlDTO`, files not under
`src/`) consumed as an opaque collaborator that yields the list of
violated-field errors of a merged payload. -/
abbrev PayloadValidator := Obj → List String

/-- Modelled from the spec: `crypto.createHmac('sha512', secret)` followed
by `.update(material).digest('hex')` — the external SignatureEngine,
consumed as an oracle from secret and canonical query string to hex
digest. -/
abbrev Hmac := String → String → String

/-- Rejection values of the `buildPaymentUrl` promise. -/
inductive BuildReject where
  | configError (msg : String)
  | validationError (fields : List String)
deriving DecidableEq, Repr

/-- JS `data.vnp_Amount * 100` (line 146).  Multiplying a non-number
(`undefined`, etc.) yields `NaN`; the payload schema types `vnp_Amount` as
a number, so only the `num` branch is reachable for schema-valid
payloads. -/
def jvalMul100 : JVal → JVal
  | .num n => .num (n * 100)
  | _ => .nan

/-- Lines 138-140: when the payload's `vnp_ReturnUrl` is falsy the config's
default return URL is written INTO THE CALLER'S PAYLOAD OBJECT. -/
def buildPayloadAfter (v : VNPay) (payload : Obj) : Obj :=
  if isFalsy (objGet payload "vnp_ReturnUrl") then
    objSet payload "vnp_ReturnUrl" v.globalConfig.returnUrl
  else payload

/-- The merged and mutated field set `data` of lines 142-147:
spread of `configDefault` and the (possibly return-URL-patched) payload,
then `vnp_CreateDate`, `vnp_Amount := vnp_Amount * 100` and
`vnp_TmnCode := config.tmnCode`.  `createDate` is the formatted UTC+7
timestamp, an external input (moment-timezone plus `dateFormat`, files not
under `src/`). -/
def buildData (v : VNPay) (createDate : String) (payload : Obj) : Obj :=
  let d0 := objMerge (configDefault v) (buildPayloadAfter v payload)
  let d1 := objSet d0 "vnp_CreateDate" (.str createDate)
  let d2 := objSet d1 "vnp_Amount" (jvalMul100 (objGet d1 "vnp_Amount"))
  objSet d2 "vnp_TmnCode" (.str v.globalConfig.tmnCode)

/-- The canonical query string that is hashed on the build path
(`redirectUrl.search.slice(1)` of line 170). -/
def buildSignedMaterial (v : VNPay) (createDate : String) (payload : Obj) : String :=
  renderQuery (buildCanonEntries (buildData v createDate payload))

/-- The hex signature of line 169-171. -/
def buildSecureHash (hmac : Hmac) (v : VNPay) (createDate : String) (payload : Obj) : String :=
  hmac v.globalConfig.secureSecret (buildSignedMaterial v createDate payload)

/-- All query pairs of the final URL: canonical entries with the signature
appended last (line 173). -/
def buildUrlPairs (hmac : Hmac) (v : VNPay) (createDate : String) (payload : Obj) :
    List (String × String) :=
  buildCanonEntries (buildData v createDate payload) ++
    [("vnp_SecureHash", buildSecureHash hmac v createDate payload)]

/-- The URL string resolved on line 175. -/
def buildUrl (hmac : Hmac) (v : VNPay) (createDate : String) (payload : Obj) : String :=
  urlOf v.globalConfig.paymentGateway (buildUrlPairs hmac v createDate payload)

instance {ε α : Type} [DecidableEq ε] [DecidableEq α] : DecidableEq (Except ε α) := fun a b =>
  match a, b with
  | .error e, .error f =>
    if h : e = f then .isTrue (congrArg Except.error h)
    else .isFalse (fun c => h (Except.error.inj c))
  | .ok x, .ok y =>
    if h : x = y then .isTrue (congrArg Except.ok h)
    else .isFalse (fun c => h (Except.ok.inj c))
  | .error _, .ok _ => .isFalse Except.noConfusion
  | .ok _, .error _ => .isFalse Except.noConfusion

/-- Observable outcome of one `buildPaymentUrl` call: the settle attempts
of its promise in program order, and the caller's payload object after the
call (the source mutates it on line 139). -/
structure BuildCall where
  settles : List (Except BuildReject String)
  payloadAfter : Obj
deriving DecidableEq, Repr

/-- `buildPaymentUrl` (lines 131-177).  The executor runs synchronously:
a config error rejects and returns early (lines 133-136); otherwise the
URL is resolved on line 175, and the detached `validate(...).then` callback
of lines 150-154 — a microtask that necessarily runs after the executor —
attempts a `reject` afterwards whenever the validator reported errors.
The promise outcome is the first settle attempt. -/
def buildPaymentUrl (hmac : Hmac) (validatePayload : PayloadValidator)
    (createDate : String) (v : VNPay) (payload : Obj) : BuildCall :=
  match validateGlobalConfig v with
  | some msg => ⟨[.error (.configError msg)], payload⟩
  | none =>
    let errs := validatePayload (buildData v createDate payload)
    ⟨[.ok (buildUrl hmac v createDate payload)] ++
      (if errs.isEmpty then [] else [.error (.validationError errs)]),
      buildPayloadAfter v payload⟩

/-- The value a promise settles to: its first settle attempt. -/
def promiseOutcome (c : BuildCall) : Option (Except BuildReject String) :=
  c.settles.head?

/-- Status-code catalog of `getResponseByStatusCode` (lines 254-356):
code, Vietnamese text, English text, verbatim. -/
def responseMap : List (String × String × String) :=
  [("00", ("Giao dịch thành công", "Approved")),
   ("01", ("Giao dịch đã tồn tại", "Transaction is already exist")),
   ("02", ("Merchant không hợp lệ (kiểm tra lại vnp_TmnCode)",
           "Invalid merchant (check vnp_TmnCode value)")),
   ("03", ("Dữ liệu gửi sang không đúng định dạng",
           "Sent data is not in the right format")),
   ("04", ("Khởi tạo GD không thành công do Website đang bị tạm khoá",
           "Payment website is not available")),
   ("05", ("Giao dịch không thành công do: Quý khách nhập sai mật khẩu thanh toán quá số lần quy định. Xin quý khách vui lòng thực hiện lại giao dịch",
           "Transaction failed: Too many wrong password input")),
   ("06", ("Giao dịch không thành công do Quý khách nhập sai mật khẩu xác thực giao dịch (OTP). Xin quý khách vui lòng thực hiện lại giao dịch.",
           "Transaction failed: Wrong OTP input")),
   ("07", ("Trừ tiền thành công. Giao dịch bị nghi ngờ (liên quan tới lừa đảo, giao dịch bất thường). Đối với giao dịch này cần merchant xác nhận thông qua merchant admin: Từ chối/Đồng ý giao dịch",
           "This transaction is suspicious")),
   ("08", ("Giao dịch không thành công do: Hệ thống Ngân hàng đang bảo trì. Xin quý khách tạm thời không thực hiện giao dịch bằng thẻ/tài khoản của Ngân hàng này.",
           "Transaction failed: The banking system is under maintenance. Please do not temporarily make transactions by card / account of this Bank.")),
   ("09", ("Giao dịch không thành công do: Thẻ/Tài khoản của khách hàng chưa đăng ký dịch vụ InternetBanking tại ngân hàng.",
           "Transaction failed: Cards / accounts of customer who has not yet registered for Internet Banking service.")),
   ("10", ("Giao dịch không thành công do: Khách hàng xác thực thông tin thẻ/tài khoản không đúng quá 3 lần",
           "Transaction failed: Customer incorrectly validate the card / account information more than 3 times")),
   ("11", ("Giao dịch không thành công do: Đã hết hạn chờ thanh toán. Xin quý khách vui lòng thực hiện lại giao dịch.",
           "Transaction failed: Pending payment is expired. Please try again.")),
   ("24", ("Giao dịch không thành công do: Khách hàng hủy giao dịch",
           "Transaction canceled")),
   ("51", ("Giao dịch không thành công do: Tài khoản của quý khách không đủ số dư để thực hiện giao dịch.",
           "Transaction failed: Your account is not enough balance to make the transaction.")),
   ("65", ("Giao dịch không thành công do: Tài khoản của Quý khách đã vượt quá hạn mức giao dịch trong ngày.",
           "Transaction failed: Your account has exceeded the daily limit.")),
   ("75", ("Ngân hàng thanh toán đang bảo trì",
           "Banking system is under maintenance")),
   ("default", ("Giao dịch thất bại", "Failure"))]

/-- Message of a catalog entry in the requested locale (the
`respondText[locale]` record access of line 362). -/
def localePick (locale : VnpLocale) (e : String × String) : String :=
  match locale with
  | .vn => e.1
  | .en => e.2

/-- `getResponseByStatusCode` (lines 253-363): exact match on the code,
falling back to the `default` entry.  The `none` branch is unreachable
(`default` is in the catalog) and mirrors the non-null assertion of the
source. -/
def getResponseByStatusCode (responseCode : String) (locale : VnpLocale) : String :=
  match responseMap.find? (fun e => e.1 == responseCode) with
  | some e => localePick locale e.2
  | none =>
    match responseMap.find? (fun e => e.1 == "default") with
    | some e => localePick locale e.2
    | none => localePick locale ("", "")

/-- Rejection values of the `verifyReturnUrl` promise: an invalid config
(lines 189-192), or the `TypeError` thrown by line 205 when
`vnp_ResponseCode` is `undefined`/`null` (a synchronous throw in the
executor rejects the promise). -/
inductive VerifyReject where
  | configError (msg : String)
  | responseCodeTypeError
deriving DecidableEq, Repr

/-- Modelled from the spec: `VerifyReturnUrlDTO` (file not under `src/`)
carries `isSuccess`, the localized `message`, and every callback field
except the two signature fields. -/
structure VerifyReturnUrlDTO where
  fields : Obj
  isSuccess : Bool
  message : String
deriving DecidableEq, Repr

/-- The working field set of `verifyReturnUrl`: the copied query with both
signature fields deleted (lines 194-200; the `ReturnQueryFromVNPayDTO`
constructor — not under `src/` — copies the caller's mapping, so the
deletes act on a copy). -/
def verifyWorking (q : Obj) : Obj :=
  objDel (objDel q "vnp_SecureHash") "vnp_SecureHashType"

/-- The canonical query string the verify path recomputes and signs
(lines 210-225). -/
def verifySignedMaterial (q : Obj) : String :=
  renderQuery (verifyCanonEntries (verifyWorking q))

/-- The recomputed hex signature of lines 222-225. -/
def verifyRecomputedHash (hmac : Hmac) (v : VNPay) (q : Obj) : String :=
  hmac v.globalConfig.secureSecret (verifySignedMaterial q)

/-- `verifyReturnUrl` (lines 185-245): reject on invalid config; copy the
query and strip both signature fields; computing the catalog message reads
`vnp_ResponseCode.toString()`, which throws (rejecting the promise) when
the field is `undefined`/`null`; recompute the signature over the stripped
fields and compare with the extracted one; `Wrong checksum` overrides the
response-code outcome on mismatch. -/
def verifyReturnUrl (hmac : Hmac) (v : VNPay) (q : Obj) :
    Except VerifyReject VerifyReturnUrlDTO :=
  match validateGlobalConfig v with
  | some msg => .error (.configError msg)
  | none =>
    match toStringOrThrow (objGet (verifyWorking q) "vnp_ResponseCode") with
    | none => .error .responseCodeTypeError
    | some rcText =>
      if objGet q "vnp_SecureHash" = JVal.str (verifyRecomputedHash hmac v q) then
        .ok ⟨verifyWorking q, objGet (verifyWorking q) "vnp_ResponseCode" == JVal.str "00",
          getResponseByStatusCode rcText v.vnp_Locale⟩
      else
        .ok ⟨verifyWorking q, false, "Wrong checksum"⟩

/-- Spec-side parse of a URL: the characters after the (single) `?`. -/
def queryCharsOf (url : String) : List Char :=
  (url.data.splitOn '?').getD 1 []

/-- Spec-side parse of a query string: segments between `&`s. -/
def querySegsOf (url : String) : List (List Char) :=
  (queryCharsOf url).splitOn '&'

/-- Marker of the signature parameter inside a query string. -/
def hashParamMark : List Char := "vnp_SecureHash=".data

/-- Does a query segment carry the `vnp_SecureHash` parameter? -/
def isHashSeg (l : List Char) : Bool := hashParamMark.isPrefixOf l

/-- The value of the `vnp_SecureHash` parameter of a URL. -/
def extractedSecureHash (url : String) : String :=
  ⟨(((querySegsOf url).filter isHashSeg).headD []).drop hashParamMark.length⟩

/-- The URL's query string with the `vnp_SecureHash` parameter removed. -/
def queryWithoutSecureHash (url : String) : String :=
  ⟨List.intercalate ['&'] ((querySegsOf url).filter (fun l => !isHashSeg l))⟩

/-- The return query derived from a built URL: every parameter of the URL,
as the string mapping a callback receiver would hand to
`verifyReturnUrl`. -/
def returnQueryOf (hmac : Hmac) (v : VNPay) (createDate : String) (payload : Obj) : Obj :=
  (buildUrlPairs hmac v createDate payload).map (fun kv => (kv.1, JVal.str kv.2))

/-- Lowercase hexadecimal characters (the alphabet of Node's
`digest('hex')`). -/
def isLowerHexChar (c : Char) : Bool :=
  ('0' ≤ c && c ≤ '9') || ('a' ≤ c && c ≤ 'f')

/-! Concrete fixtures used by witnesses and counterexamples. -/

/-- A fully populated sample configuration. -/
def sampleConfig : ConfigVnpayDTO :=
  ⟨"testsecret", "TESTTMN", "http://gateway.test/pay", .str "http://merchant.test/return"⟩

/-- A sample instance with the library defaults. -/
def sampleVNPay : VNPay := ⟨sampleConfig, "2.1.0", "pay", "VND", .vn, "other"⟩

/-- A sample build payload including a forced response code. -/
def samplePayload : Obj :=
  [("vnp_Amount", .num 100000), ("vnp_IpAddr", .str "127.0.0.1"),
   ("vnp_TxnRef", .str "tx01"), ("vnp_OrderInfo", .str "order info"),
   ("vnp_ResponseCode", .str "00")]

/-- A stand-in signing oracle whose output has the shape of an
HMAC-SHA512 hex digest (128 lowercase hex characters). -/
def sampleHmac : Hmac := fun _ _ => ⟨List.replicate 128 'a'⟩

/-- A payload validator that always reports one violated field. -/
def sampleFailValidator : PayloadValidator := fun _ => ["vnp_Amount must be a positive number"]

/-! Order facts about the key comparator. -/

theorem charListLE_total : ∀ a b, charListLE a b = true ∨ charListLE b a = true
  | [], _ => Or.inl rfl
  | _ :: _, [] => Or.inr rfl
  | a :: as, b :: bs => by
    rcases Nat.lt_trichotomy a.toNat b.toNat with h | h | h
    · exact Or.inl (by simp [charListLE, h])
    · have h₁ : ¬ a.toNat < b.toNat := by omega
      have h₂ : ¬ b.toNat < a.toNat := by omega
      rcases charListLE_total as bs with ih | ih
      · exact Or.inl (by simp only [charListLE]; rw [if_neg h₁, if_neg h₂]; exact ih)
      · exact Or.inr (by simp only [charListLE]; rw [if_neg h₂, if_neg h₁]; exact ih)
    · exact Or.inr (by simp [charListLE, h])

theorem charListLE_trans :
    ∀ a b c, charListLE a b = true → charListLE b c = true → charListLE a c = true
  | [], _, _ => fun _ _ => rfl
  | _ :: _, [], _ => fun h _ => by simp [charListLE] at h
  | _ :: _, _ :: _, [] => fun _ h => by simp [charListLE] at h
  | a :: as, b :: bs, c :: cs => fun h₁ h₂ => by
    simp only [charListLE] at h₁ h₂ ⊢
    split_ifs at h₁ with hab hba
    · split_ifs at h₂ with hbc hcb
      · have hac : a.toNat < c.toNat := Nat.lt_trans hab hbc
        simp [hac]
      · have hac : a.toNat < c.toNat := by omega
        simp [hac]
    · split_ifs at h₂ with hbc hcb
      · have hac : a.toNat < c.toNat := by omega
        simp [hac]
      · have hac₁ : ¬ a.toNat < c.toNat := by omega
        have hac₂ : ¬ c.toNat < a.toNat := by omega
        rw [if_neg hac₁, if_neg hac₂]
        exact charListLE_trans as bs cs h₁ h₂

instance : IsTotal (String × JVal) entryLE :=
  ⟨fun x y => charListLE_total x.1.data y.1.data⟩

instance : IsTrans (String × JVal) entryLE :=
  ⟨fun x y z => charListLE_trans x.1.data y.1.data z.1.data⟩

instance : IsTotal (String × String) sentryLE :=
  ⟨fun x y => charListLE_total x.1.data y.1.data⟩

instance : IsTrans (String × String) sentryLE :=
  ⟨fun x y z => charListLE_trans x.1.data y.1.data z.1.data⟩

/-! Helper lemmas on `find?` and the object operations. -/

theorem find?_congr {p q : α → Bool} :
    ∀ {l : List α}, (∀ x ∈ l, p x = q x) → l.find? p = l.find? q
  | [], _ => rfl
  | a :: l, h => by
    have ha := h a (List.mem_cons_self a l)
    by_cases hpa : p a = true
    · simp [List.find?_cons, hpa, ha ▸ hpa]
    · have hpa' : p a = false := by revert hpa; cases p a <;> simp
      simp only [List.find?_cons, hpa', ha ▸ hpa']
      exact find?_congr fun x hx => h x (List.mem_cons_of_mem _ hx)

theorem find?_filter_of_imp {p q : α → Bool} :
    ∀ {l : List α}, (∀ x, p x = true → q x = true) →
      (l.filter q).find? p = l.find? p
  | [], _ => rfl
  | a :: l, h => by
    by_cases hq : q a = true
    · by_cases hp : p a = true
      · simp [List.filter_cons, hq, List.find?_cons, hp]
      · have hp' : p a = false := by revert hp; cases p a <;> simp
        simp only [List.filter_cons, hq, if_true, List.find?_cons, hp']
        exact find?_filter_of_imp h
    · have hq' : q a = false := by revert hq; cases q a <;> simp
      have hp' : p a = false := by
        cases hpa : p a
        · rfl
        · exact absurd (h a hpa) hq
      simp only [List.filter_cons, hq', if_false, List.find?_cons, hp']
      exact find?_filter_of_imp h

/-- Keys of an association list. -/
def keysOf (o : List (String × α)) : List String := o.map Prod.fst

theorem objGet_objSet_self (o : Obj) (k : String) (v : JVal) :
    objGet (objSet o k v) k = v := by
  unfold objSet
  by_cases h : (o.find? (fun kv => kv.1 == k)).isSome = true
  · rw [if_pos h]
    unfold objGet
    rw [List.find?_map]
    have hp : ∀ kv ∈ o,
        ((fun kv : String × JVal => kv.1 == k) ∘
          (fun kv : String × JVal => if kv.1 == k then (k, v) else kv)) kv =
        (fun kv : String × JVal => kv.1 == k) kv := by
      intro kv _
      by_cases hk : kv.1 = k
      · simp [Function.comp, hk]
      · simp [Function.comp, hk]
    rw [find?_congr hp]
    rcases Option.isSome_iff_exists.mp h with ⟨kv₀, hkv₀⟩
    have hk₀ : kv₀.1 = k := by simpa using List.find?_some hkv₀
    rw [hkv₀]
    simp [hk₀]
  · rw [if_neg h]
    unfold objGet
    rw [List.find?_append]
    have hnone : o.find? (fun kv => kv.1 == k) = none :=
      Option.not_isSome_iff_eq_none.mp h
    simp [hnone, List.find?_cons]

theorem objGet_objSet_ne (o : Obj) (k k' : String) (v : JVal) (h : k' ≠ k) :
    objGet (objSet o k v) k' = objGet o k' := by
  unfold objSet
  by_cases hs : (o.find? (fun kv => kv.1 == k)).isSome = true
  · rw [if_pos hs]
    unfold objGet
    rw [List.find?_map]
    have hp : ∀ kv ∈ o,
        ((fun kv : String × JVal => kv.1 == k') ∘
          (fun kv : String × JVal => if kv.1 == k then (k, v) else kv)) kv =
        (fun kv : String × JVal => kv.1 == k') kv := by
      intro kv _
      by_cases hk : kv.1 = k
      · simp [Function.comp, hk]
      · simp [Function.comp, hk]
    rw [find?_congr hp]
    cases hf : o.find? (fun kv => kv.1 == k')
    · simp
    · rename_i kv₀
      have hk₀ : kv₀.1 = k' := by simpa using List.find?_some hf
      have hne : ¬ kv₀.1 = k := by rw [hk₀]; exact h
      simp [hne]
  · rw [if_neg hs]
    unfold objGet
    rw [List.find?_append]
    have hkk : (((k, v) : String × JVal).1 == k') = false := by
      simpa using Ne.symm h
    cases hf : o.find? (fun kv => kv.1 == k') <;>
      simp [List.find?_cons, hkk, hf]

theorem objGet_objDel_ne (o : Obj) (k k' : String) (h : k' ≠ k) :
    objGet (objDel o k) k' = objGet o k' := by
  unfold objDel objGet
  rw [find?_filter_of_imp]
  intro kv hkv
  have : kv.1 = k' := by simpa using hkv
  simp [this, h]

theorem objDel_eq_self {o : Obj} {k : String} (h : ∀ kv ∈ o, ¬ kv.1 = k) :
    objDel o k = o := by
  unfold objDel
  rw [List.filter_eq_self]
  intro kv hkv
  simpa using h kv hkv

theorem objDel_append (o o' : Obj) (k : String) :
    objDel (o ++ o') k = objDel o k ++ objDel o' k :=
  List.filter_append _ _

/-- The base half of a spread keeps its keys. -/
theorem mergeBaseEntry_key (over : Obj) (kv : String × JVal) :
    (mergeBaseEntry over kv).1 = kv.1 := by
  unfold mergeBaseEntry
  cases over.find? (fun kv2 => kv2.1 == kv.1) <;> rfl

theorem keysOf_objMerge (base over : Obj) :
    keysOf (objMerge base over) =
      keysOf base ++ keysOf (over.filter (mergeKeepNew base)) := by
  unfold objMerge keysOf
  rw [List.map_append, List.map_map]
  congr 1
  exact List.map_congr_left fun kv _ => mergeBaseEntry_key over kv

theorem objGet_objMerge_right {base : Obj} (over : Obj) {k : String}
    (h : ∀ kv ∈ base, ¬ kv.1 = k) :
    objGet (objMerge base over) k = objGet over k := by
  unfold objMerge objGet
  rw [List.find?_append]
  have h₁ : (base.map (mergeBaseEntry over)).find? (fun kv => kv.1 == k) = none := by
    rw [List.find?_eq_none]
    intro x hx
    rcases List.mem_map.mp hx with ⟨kv, hkv, rfl⟩
    rw [mergeBaseEntry_key]
    simpa using h kv hkv
  rw [h₁, Option.none_or, find?_filter_of_imp]
  intro kv2 hkv2
  have hk : kv2.1 = k := by simpa using hkv2
  have hf : base.find? (fun kv => kv.1 == kv2.1) = none := by
    rw [List.find?_eq_none]
    intro kv hkv
    simpa [hk] using h kv hkv
  simp [mergeKeepNew, hf]

theorem mem_keysOf_objSet {o : Obj} {k k' : String} {v : JVal}
    (h : k' ∈ keysOf (objSet o k v)) : k' = k ∨ k' ∈ keysOf o := by
  unfold objSet at h
  split at h
  · unfold keysOf at h
    rw [List.map_map] at h
    rcases List.mem_map.mp h with ⟨kv, hkv, heq⟩
    by_cases hk : kv.1 = k
    · left
      rw [← heq]
      simp [Function.comp, hk]
    · right
      rw [← heq]
      have : ((fun kv : String × JVal => if kv.1 == k then (k, v) else kv) kv) = kv := by
        simp [hk]
      simp only [Function.comp_apply, this]
      exact List.mem_map_of_mem Prod.fst hkv
  · unfold keysOf at h
    rw [List.map_append] at h
    rcases List.mem_append.mp h with h | h
    · exact Or.inr h
    · left
      simpa using h

theorem nodup_keysOf_objSet {o : Obj} (k : String) (v : JVal)
    (h : (keysOf o).Nodup) : (keysOf (objSet o k v)).Nodup := by
  unfold objSet
  split
  · unfold keysOf
    rw [List.map_map]
    have : (Prod.fst ∘ (fun kv : String × JVal => if kv.1 == k then (k, v) else kv)) =
        (Prod.fst : String × JVal → String) := by
      funext kv
      by_cases hk : kv.1 = k
      · simp [Function.comp, hk]
      · simp [Function.comp, hk]
    rw [this]
    exact h
  · rename_i hns
    unfold keysOf
    rw [List.map_append, List.nodup_append]
    refine ⟨h, by simp, ?_⟩
    intro x hx hx'
    have hxk : x = k := by simpa using hx'
    rcases List.mem_map.mp hx with ⟨kv, hkv, rfl⟩
    have : o.find? (fun kv => kv.1 == k) = none := Option.not_isSome_iff_eq_none.mp hns
    rw [List.find?_eq_none] at this
    exact this kv hkv (by simpa using hxk)

theorem nodup_keysOf_objMerge {base over : Obj}
    (hb : (keysOf base).Nodup) (ho : (keysOf over).Nodup) :
    (keysOf (objMerge base over)).Nodup := by
  rw [keysOf_objMerge, List.nodup_append]
  refine ⟨hb, ?_, ?_⟩
  · exact List.Nodup.sublist ((List.filter_sublist over).map Prod.fst) ho
  · intro x hx hx'
    rcases List.mem_map.mp hx' with ⟨kv2, hkv2, rfl⟩
    have hq := (List.mem_filter.mp hkv2).2
    have hnone : base.find? (fun kv => kv.1 == kv2.1) = none := by
      cases hf : base.find? (fun kv => kv.1 == kv2.1)
      · rfl
      · rw [mergeKeepNew, hf] at hq; simp at hq
    rw [List.find?_eq_none] at hnone
    rcases List.mem_map.mp hx with ⟨kv, hkv, hk⟩
    exact hnone kv hkv (by simpa using hk)

theorem mem_keysOf_objMerge {base over : Obj} {k' : String}
    (h : k' ∈ keysOf (objMerge base over)) :
    k' ∈ keysOf base ∨ k' ∈ keysOf over := by
  rw [keysOf_objMerge] at h
  rcases List.mem_append.mp h with h | h
  · exact Or.inl h
  · right
    rcases List.mem_map.mp h with ⟨kv2, hkv2, rfl⟩
    exact List.mem_map_of_mem Prod.fst (List.mem_filter.mp hkv2).1

theorem find?_eq_some_of_mem_nodup :
    ∀ {o : Obj}, (keysOf o).Nodup → ∀ {k : String} {v : JVal}, (k, v) ∈ o →
      o.find? (fun kv => kv.1 == k) = some (k, v) := by
  intro o
  induction o with
  | nil => intro _ k v hm; cases hm
  | cons a o ih =>
    intro hnd k v hm
    rcases List.mem_cons.mp hm with rfl | hm
    · simp [List.find?_cons]
    · have hka : ¬ a.1 = k := by
        intro hak
        have : k ∈ keysOf o :=
          List.mem_map_of_mem Prod.fst hm
        have := (List.nodup_cons.mp hnd).1
        rw [hak] at this
        exact this ‹k ∈ keysOf o›
      rw [List.find?_cons_of_neg _ (by simpa using hka)]
      exact ih (List.nodup_cons.mp hnd).2 hm

theorem objGet_of_mem_nodup {o : Obj} (hnd : (keysOf o).Nodup) {k : String} {v : JVal}
    (hm : (k, v) ∈ o) : objGet o k = v := by
  unfold objGet
  rw [find?_eq_some_of_mem_nodup hnd hm]

theorem mem_of_objGet {o : Obj} {k : String} {v : JVal}
    (h : objGet o k = v) (hne : v ≠ .undefined) : (k, v) ∈ o := by
  unfold objGet at h
  cases hf : o.find? (fun kv => kv.1 == k) with
  | none => rw [hf] at h; exact absurd h.symm hne
  | some kv =>
    rw [hf] at h
    have h₁ : kv.1 = k := by simpa using List.find?_some hf
    have h₂ := List.mem_of_find?_eq_some hf
    have : kv = (k, v) := by
      cases kv
      simp_all
    rw [← this]
    exact h₂

/-! Rendered values of non-falsy entries are nonempty strings. -/

theorem toDigitsCore_length_le (b : Nat) :
    ∀ (f n : Nat) (ds : List Char), ds.length ≤ (Nat.toDigitsCore b f n ds).length
  | 0, _, _ => Nat.le_refl _
  | f + 1, n, ds => by
    simp only [Nat.toDigitsCore]
    split
    · exact Nat.le_succ _
    · exact Nat.le_trans (Nat.le_succ _)
        (toDigitsCore_length_le b f (n / b) (Nat.digitChar (n % b) :: ds))

theorem toDigits_ne_nil (b n : Nat) : Nat.toDigits b n ≠ [] := by
  unfold Nat.toDigits
  simp only [Nat.toDigitsCore]
  split
  · simp
  · intro h
    have := toDigitsCore_length_le b n (n / b) [Nat.digitChar (n % b)]
    rw [h] at this
    simp at this

theorem natRepr_ne_empty (n : Nat) : Nat.repr n ≠ "" := by
  unfold Nat.repr
  intro h
  have : (Nat.toDigits 10 n).asString.data = "".data := by rw [h]
  exact toDigits_ne_nil 10 n this

theorem int_toString_ne_empty (n : Int) : toString n ≠ "" := by
  cases n with
  | ofNat m => exact natRepr_ne_empty m
  | negSucc m =>
    show "-" ++ toString (m + 1) ≠ ""
    intro h
    have : ("-" ++ toString (m + 1)).data = "".data := by rw [h]
    rw [String.data_append] at this
    simp at this

theorem jvalRender_ne_empty {v : JVal} (h : isFalsy v = false) : jvalRender v ≠ "" := by
  cases v with
  | str s => simpa [isFalsy, jvalRender] using h
  | num n => exact int_toString_ne_empty n
  | bool b =>
    have : b = true := by simpa [isFalsy] using h
    simp [jvalRender, this]
  | null => simp [isFalsy] at h
  | undefined => simp [isFalsy] at h
  | nan => simp [isFalsy] at h

/-! Stability of the sort-then-filter pipeline: entries dropped by the
filter do not influence the rest of the output. -/

theorem filter_orderedInsert_neg (r : α → α → Prop) [DecidableRel r] (p : α → Bool) (a : α)
    (hpa : p a = false) :
    ∀ l : List α, (List.orderedInsert r a l).filter p = l.filter p
  | [] => by simp [List.orderedInsert, hpa]
  | b :: l => by
    by_cases hr : r a b
    · simp [List.orderedInsert, if_pos hr, List.filter_cons, hpa]
    · rw [List.orderedInsert, if_neg hr, List.filter_cons, List.filter_cons]
      cases hb : p b <;>
        simp [filter_orderedInsert_neg r p a hpa l]

theorem takeWhile_eq_filter_of_sorted (r : α → α → Prop) [DecidableRel r] [IsTrans α r]
    (a : α) :
    ∀ {l : List α}, List.Sorted r l →
      l.takeWhile (fun b => decide ¬ r a b) = l.filter (fun b => decide ¬ r a b)
  | [], _ => rfl
  | b :: l, h => by
    by_cases hb : r a b
    · have hpb : (decide ¬ r a b) = false := by simp [hb]
      rw [List.takeWhile_cons, List.filter_cons, hpb]
      simp only [Bool.false_eq_true, if_false]
      symm
      rw [List.filter_eq_nil_iff]
      intro x hx
      have : r a x := Trans.trans hb (List.rel_of_sorted_cons h x hx)
      simp [this]
    · have hpb : (decide ¬ r a b) = true := by simp [hb]
      rw [List.takeWhile_cons, List.filter_cons, hpb]
      simp only [if_true]
      rw [takeWhile_eq_filter_of_sorted r a h.of_cons]

theorem dropWhile_eq_filter_of_sorted (r : α → α → Prop) [DecidableRel r] [IsTrans α r]
    (a : α) :
    ∀ {l : List α}, List.Sorted r l →
      l.dropWhile (fun b => decide ¬ r a b) = l.filter (fun b => decide (r a b))
  | [], _ => rfl
  | b :: l, h => by
    by_cases hb : r a b
    · have hpb : (decide ¬ r a b) = false := by simp [hb]
      have hqb : (decide (r a b)) = true := decide_eq_true hb
      rw [List.dropWhile_cons, List.filter_cons, hpb, hqb]
      simp only [Bool.false_eq_true, if_false, if_true]
      congr 1
      symm
      rw [List.filter_eq_self]
      intro x hx
      have : r a x := Trans.trans hb (List.rel_of_sorted_cons h x hx)
      simp [this]
    · have hpb : (decide ¬ r a b) = true := by simp [hb]
      have hqb : (decide (r a b)) = false := decide_eq_false hb
      rw [List.dropWhile_cons, List.filter_cons, hpb, hqb]
      simp only [Bool.false_eq_true, if_false, if_true]
      exact dropWhile_eq_filter_of_sorted r a h.of_cons

theorem filter_orderedInsert_pos (r : α → α → Prop) [DecidableRel r] [IsTrans α r]
    (p : α → Bool) (a : α) (hpa : p a = true) {l : List α} (hl : List.Sorted r l) :
    (List.orderedInsert r a l).filter p =
      ((l.filter p).takeWhile (fun b => decide ¬ r a b)) ++
        a :: ((l.filter p).dropWhile (fun b => decide ¬ r a b)) := by
  rw [List.orderedInsert_eq_take_drop, List.filter_append, List.filter_cons, hpa]
  simp only [if_true]
  rw [takeWhile_eq_filter_of_sorted r a hl, dropWhile_eq_filter_of_sorted r a hl,
    takeWhile_eq_filter_of_sorted r a (hl.filter p),
    dropWhile_eq_filter_of_sorted r a (hl.filter p)]
  rw [List.filter_filter, List.filter_filter, List.filter_filter, List.filter_filter]
  congr 1
  · exact List.filter_congr fun x _ => Bool.and_comm _ _
  · congr 1
    exact List.filter_congr fun x _ => Bool.and_comm _ _

theorem filter_insertionSort_append (r : α → α → Prop) [DecidableRel r]
    [IsTotal α r] [IsTrans α r] (p : α → Bool) (x : α) (hpx : p x = false) :
    ∀ (l₁ l₂ : List α),
      ((l₁ ++ x :: l₂).insertionSort r).filter p = ((l₁ ++ l₂).insertionSort r).filter p
  | [], l₂ => by
    simp only [List.nil_append, List.insertionSort]
    exact filter_orderedInsert_neg r p x hpx _
  | a :: l₁, l₂ => by
    have e₁ : ((a :: l₁) ++ x :: l₂).insertionSort r =
        List.orderedInsert r a ((l₁ ++ x :: l₂).insertionSort r) := rfl
    have e₂ : ((a :: l₁) ++ l₂).insertionSort r =
        List.orderedInsert r a ((l₁ ++ l₂).insertionSort r) := rfl
    rw [e₁, e₂]
    by_cases hpa : p a = true
    · rw [filter_orderedInsert_pos r p a hpa (List.sorted_insertionSort r _),
        filter_orderedInsert_pos r p a hpa (List.sorted_insertionSort r _),
        filter_insertionSort_append r p x hpx l₁ l₂]
    · have hpa' : p a = false := by revert hpa; cases p a <;> simp
      rw [filter_orderedInsert_neg r p a hpa', filter_orderedInsert_neg r p a hpa']
      exact filter_insertionSort_append r p x hpx l₁ l₂

/-- Both canonicalization loops are the same function. -/
theorem verifyCanonEntries_eq_build (o : Obj) : verifyCanonEntries o = buildCanonEntries o := rfl

theorem length_buildCanonEntries (o : Obj) :
    (buildCanonEntries o).length = o.countP (fun kv => !isFalsy kv.2) := by
  unfold buildCanonEntries
  rw [List.length_map, ← List.countP_eq_length_filter]
  exact (List.perm_insertionSort entryLE o).countP_eq _

theorem buildCanonEntries_middle (l₁ l₂ : Obj) (k : String) (v : JVal)
    (hfalsy : isFalsy v = true) :
    buildCanonEntries (l₁ ++ (k, v) :: l₂) = buildCanonEntries (l₁ ++ l₂) := by
  unfold buildCanonEntries
  congr 1
  exact filter_insertionSort_append entryLE _ (k, v) (by simp [hfalsy]) l₁ l₂

/-! Character-level facts about the encoder and the query serializer. -/

theorem hexDigitUpper_mem (n : Nat) : hexDigitUpper n ∈ hexUpperChars := by
  unfold hexDigitUpper List.getD
  cases h : hexUpperChars.get? n with
  | none => decide
  | some c =>
    simp only [Option.getD_some]
    exact List.get?_mem h

theorem encodeChar_subset {c c' : Char} (h : c' ∈ encodeChar c) :
    urlSafeChar c' = true ∨ c' = '+' ∨ c' = '%' ∨ c' ∈ hexUpperChars := by
  unfold encodeChar at h
  split_ifs at h with hsafe hspace
  · left
    rcases List.mem_singleton.mp h with rfl
    exact hsafe
  · right; left
    exact List.mem_singleton.mp h
  · rcases List.mem_flatten.mp h with ⟨l, hl, hc⟩
    rcases List.mem_map.mp hl with ⟨b, _, rfl⟩
    unfold encodeByte at hc
    have hc' : c' = '%' ∨ c' = hexDigitUpper (b / 16) ∨ c' = hexDigitUpper (b % 16) := by
      simpa using hc
    rcases hc' with rfl | rfl | rfl
    · right; right; left; rfl
    · right; right; right; exact hexDigitUpper_mem (b / 16)
    · right; right; right; exact hexDigitUpper_mem (b % 16)

theorem encodeChar_no_reserved {c c' : Char} (h : c' ∈ encodeChar c) :
    ¬ c' = '&' ∧ ¬ c' = '=' ∧ ¬ c' = '?' := by
  rcases encodeChar_subset h with hs | hp | hpct | hhex
  · refine ⟨?_, ?_, ?_⟩ <;> intro heq <;> rw [heq] at hs <;> revert hs <;> decide
  · subst hp; decide
  · subst hpct; decide
  · have hall : ∀ x ∈ hexUpperChars, ¬ x = '&' ∧ ¬ x = '=' ∧ ¬ x = '?' := by decide
    exact hall c' hhex

theorem urlEncode_no_reserved {s : String} {c' : Char} (h : c' ∈ (urlEncode s).data) :
    ¬ c' = '&' ∧ ¬ c' = '=' ∧ ¬ c' = '?' := by
  unfold urlEncode at h
  rcases List.mem_flatten.mp h with ⟨l, hl, hc⟩
  rcases List.mem_map.mp hl with ⟨c, _, rfl⟩
  exact encodeChar_no_reserved hc

theorem mem_segChars {kv : String × String} {c' : Char} (h : c' ∈ segChars kv) :
    c' ∈ (urlEncode kv.1).data ∨ c' = '=' ∨ c' ∈ (urlEncode kv.2).data := by
  unfold segChars at h
  rcases List.mem_append.mp h with h | h
  · exact Or.inl h
  · rcases List.mem_cons.mp h with h | h
    · exact Or.inr (Or.inl h)
    · exact Or.inr (Or.inr h)

theorem segChars_no_amp {kv : String × String} : '&' ∉ segChars kv := by
  intro h
  rcases mem_segChars h with h | h | h
  · exact (urlEncode_no_reserved h).1 rfl
  · cases h
  · exact (urlEncode_no_reserved h).1 rfl

theorem segChars_no_qmark {kv : String × String} : '?' ∉ segChars kv := by
  intro h
  rcases mem_segChars h with h | h | h
  · exact (urlEncode_no_reserved h).2.2 rfl
  · cases h
  · exact (urlEncode_no_reserved h).2.2 rfl

theorem mem_intersperse {sep : α} :
    ∀ {ls : List α} {y : α}, y ∈ ls.intersperse sep → y = sep ∨ y ∈ ls
  | [], y, h => absurd h (List.not_mem_nil y)
  | [a], y, h => by
    right
    simpa using h
  | a :: b :: t, y, h => by
    have he : List.intersperse sep (a :: b :: t) =
        a :: sep :: List.intersperse sep (b :: t) := rfl
    rw [he] at h
    rcases List.mem_cons.mp h with rfl | h
    · exact Or.inr (List.mem_cons_self _ _)
    · rcases List.mem_cons.mp h with rfl | h
      · exact Or.inl rfl
      · rcases mem_intersperse h with h | h
        · exact Or.inl h
        · exact Or.inr (List.mem_cons_of_mem _ h)

theorem mem_intercalate_single {x : α} {ls : List (List α)} {c : α}
    (h : c ∈ [x].intercalate ls) : c = x ∨ ∃ l ∈ ls, c ∈ l := by
  unfold List.intercalate at h
  rcases List.mem_flatten.mp h with ⟨l, hl, hc⟩
  rcases mem_intersperse hl with rfl | hmem
  · exact Or.inl (List.mem_singleton.mp hc)
  · exact Or.inr ⟨l, hmem, hc⟩

theorem mem_renderQueryChars {ps : List (String × String)} {c : Char}
    (h : c ∈ renderQueryChars ps) : c = '&' ∨ ∃ kv ∈ ps, c ∈ segChars kv := by
  unfold renderQueryChars at h
  rcases mem_intercalate_single h with rfl | ⟨l, hl, hc⟩
  · exact Or.inl rfl
  · rcases List.mem_map.mp hl with ⟨kv, hkv, rfl⟩
    exact Or.inr ⟨kv, hkv, hc⟩

theorem renderQueryChars_no_qmark (ps : List (String × String)) :
    '?' ∉ renderQueryChars ps := by
  intro h
  rcases mem_renderQueryChars h with h | ⟨kv, _, hc⟩
  · cases h
  · exact segChars_no_qmark hc

theorem intercalate_pair (x : α) (a b : List α) :
    [x].intercalate [a, b] = a ++ x :: b := by
  simp [List.intercalate, List.intersperse]

theorem queryCharsOf_urlOf {base : String} {ps : List (String × String)}
    (hq : '?' ∉ base.data) :
    queryCharsOf (urlOf base ps) = renderQueryChars ps := by
  unfold queryCharsOf urlOf
  have hdata : (base ++ "?" ++ renderQuery ps).data =
      base.data ++ '?' :: renderQueryChars ps := by
    rw [String.data_append, String.data_append, List.append_assoc]
    congr 1
  rw [hdata]
  have hform : base.data ++ '?' :: renderQueryChars ps =
      [('?' : Char)].intercalate [base.data, renderQueryChars ps] := by
    rw [intercalate_pair]
  rw [hform, List.splitOn_intercalate]
  · rfl
  · intro l hl
    rcases List.mem_cons.mp hl with rfl | hl
    · exact hq
    · rcases List.mem_cons.mp hl with rfl | hl
      · exact renderQueryChars_no_qmark ps
      · cases hl
  · simp

theorem querySegsOf_urlOf {base : String} {ps : List (String × String)}
    (hq : '?' ∉ base.data) (hne : ps ≠ []) :
    querySegsOf (urlOf base ps) = ps.map segChars := by
  unfold querySegsOf
  rw [queryCharsOf_urlOf hq]
  unfold renderQueryChars
  apply List.splitOn_intercalate
  · intro l hl
    rcases List.mem_map.mp hl with ⟨kv, _, rfl⟩
    exact segChars_no_amp
  · simpa using hne

/-! Segment prefixes: the part of a segment before the first `=` determines
whether it is the signature parameter. -/

theorem prefix_sep_iff (c : Char) :
    ∀ (p k ev : List Char), c ∉ p → c ∉ k →
      ((p ++ [c]) <+: (k ++ c :: ev) ↔ p = k)
  | [], [], ev, _, _ => by
    simp [List.cons_prefix_cons]
  | [], b :: k', ev, _, hk => by
    simp only [List.nil_append, List.cons_append, List.cons_prefix_cons]
    constructor
    · rintro ⟨rfl, -⟩
      exact absurd (List.mem_cons_self _ _) hk
    · intro h
      cases h
  | a :: p', [], ev, hp, _ => by
    simp only [List.cons_append, List.nil_append, List.cons_prefix_cons]
    constructor
    · rintro ⟨rfl, -⟩
      exact absurd (List.mem_cons_self _ _) hp
    · intro h
      cases h
  | a :: p', b :: k', ev, hp, hk => by
    simp only [List.cons_append, List.cons_prefix_cons]
    rw [prefix_sep_iff c p' k' ev (fun h => hp (List.mem_cons_of_mem _ h))
      (fun h => hk (List.mem_cons_of_mem _ h))]
    constructor
    · rintro ⟨rfl, rfl⟩
      rfl
    · intro h
      injection h with h₁ h₂
      exact ⟨h₁, h₂⟩

theorem flatten_map_encodeChar_of_safe :
    ∀ {l : List Char}, (∀ c ∈ l, urlSafeChar c = true) → (l.map encodeChar).flatten = l
  | [], _ => rfl
  | c :: t, h => by
    rw [List.map_cons, List.flatten_cons,
      flatten_map_encodeChar_of_safe (fun c' hc' => h c' (List.mem_cons_of_mem _ hc'))]
    unfold encodeChar
    rw [if_pos (h c (List.mem_cons_self _ _))]
    rfl

theorem urlEncode_of_safe {s : String} (h : ∀ c ∈ s.data, urlSafeChar c = true) :
    urlEncode s = s :=
  String.ext (flatten_map_encodeChar_of_safe h)

theorem lowerHex_safe {c : Char} (h : isLowerHexChar c = true) : urlSafeChar c = true := by
  unfold isLowerHexChar at h
  unfold urlSafeChar
  simp only [Bool.or_eq_true, Bool.and_eq_true, decide_eq_true_eq] at h ⊢
  rcases h with h | ⟨h₁, h₂⟩
  · tauto
  · have hz : c ≤ 'z' := le_trans h₂ (by decide)
    tauto

theorem urlEncode_of_lowerHex {s : String} (h : s.data.all isLowerHexChar = true) :
    urlEncode s = s :=
  urlEncode_of_safe fun c hc => lowerHex_safe (List.all_eq_true.mp h c hc)

/-! Keys of the merged data. -/

theorem not_key_of_not_mem_keys {o : List (String × α)} {k : String}
    (h : k ∉ keysOf o) : ∀ kv ∈ o, ¬ kv.1 = k :=
  fun _kv hkv hk => h (hk ▸ List.mem_map_of_mem Prod.fst hkv)

theorem keysOf_configDefault (v : VNPay) :
    keysOf (configDefault v) =
      ["vnp_Version", "vnp_Command", "vnp_CurrCode", "vnp_Locale", "vnp_OrderType"] := rfl

theorem mem_keysOf_buildPayloadAfter {v : VNPay} {payload : Obj} {k' : String}
    (h : k' ∈ keysOf (buildPayloadAfter v payload)) :
    k' = "vnp_ReturnUrl" ∨ k' ∈ keysOf payload := by
  unfold buildPayloadAfter at h
  split at h
  · exact mem_keysOf_objSet h
  · exact Or.inr h

theorem mem_keysOf_buildData {v : VNPay} {cd : String} {payload : Obj} {k' : String}
    (h : k' ∈ keysOf (buildData v cd payload)) :
    k' ∈ keysOf payload ∨
      k' ∈ ["vnp_Version", "vnp_Command", "vnp_CurrCode", "vnp_Locale", "vnp_OrderType",
        "vnp_ReturnUrl", "vnp_CreateDate", "vnp_Amount", "vnp_TmnCode"] := by
  unfold buildData at h
  rcases mem_keysOf_objSet h with rfl | h
  · right; simp
  rcases mem_keysOf_objSet h with rfl | h
  · right; simp
  rcases mem_keysOf_objSet h with rfl | h
  · right; simp
  rcases mem_keysOf_objMerge h with h | h
  · rw [keysOf_configDefault] at h
    right
    simp only [List.mem_cons, List.mem_singleton] at h ⊢
    tauto
  · rcases mem_keysOf_buildPayloadAfter h with rfl | h
    · right; simp
    · exact Or.inl h

theorem nodup_keysOf_buildData {v : VNPay} {cd : String} {payload : Obj}
    (h : (keysOf payload).Nodup) : (keysOf (buildData v cd payload)).Nodup := by
  unfold buildData
  apply nodup_keysOf_objSet
  apply nodup_keysOf_objSet
  apply nodup_keysOf_objSet
  apply nodup_keysOf_objMerge
  · rw [keysOf_configDefault]
    decide
  · unfold buildPayloadAfter
    split
    · exact nodup_keysOf_objSet _ _ h
    · exact h

theorem objGet_buildData_of_payload {v : VNPay} {cd : String} {payload : Obj} {k : String}
    (hk1 : ¬ k = "vnp_CreateDate") (hk2 : ¬ k = "vnp_Amount") (hk3 : ¬ k = "vnp_TmnCode")
    (hk4 : ¬ k = "vnp_ReturnUrl")
    (hk5 : k ∉ keysOf (configDefault v)) :
    objGet (buildData v cd payload) k = objGet payload k := by
  unfold buildData
  rw [objGet_objSet_ne _ _ _ _ hk3, objGet_objSet_ne _ _ _ _ hk2,
    objGet_objSet_ne _ _ _ _ hk1, objGet_objMerge_right _ (not_key_of_not_mem_keys hk5)]
  unfold buildPayloadAfter
  split
  · rw [objGet_objSet_ne _ _ _ _ hk4]
  · rfl

theorem objGet_buildData_amount {v : VNPay} {cd : String} {payload : Obj} :
    objGet (buildData v cd payload) "vnp_Amount" =
      jvalMul100 (objGet payload "vnp_Amount") := by
  unfold buildData
  rw [objGet_objSet_ne _ _ _ _ (by decide), objGet_objSet_self]
  congr 1
  rw [objGet_objSet_ne _ _ _ _ (by decide),
    objGet_objMerge_right _ (not_key_of_not_mem_keys (by rw [keysOf_configDefault]; decide))]
  unfold buildPayloadAfter
  split
  · rw [objGet_objSet_ne _ _ _ _ (by decide)]
  · rfl

/-! Shape of the canonical entry list. -/

theorem sorted_buildCanonEntries (o : Obj) :
    List.Sorted sentryLE (buildCanonEntries o) := by
  unfold buildCanonEntries
  exact List.Pairwise.map _ (fun a b hab => hab)
    ((List.sorted_insertionSort entryLE o).filter _)

theorem mem_buildCanonEntries {o : Obj} {kv' : String × String}
    (h : kv' ∈ buildCanonEntries o) :
    ∃ v, (kv'.1, v) ∈ o ∧ isFalsy v = false ∧ kv'.2 = jvalRender v := by
  unfold buildCanonEntries at h
  rcases List.mem_map.mp h with ⟨kv, hkv, rfl⟩
  have hm := List.mem_filter.mp hkv
  refine ⟨kv.2, ?_, by simpa using hm.2, rfl⟩
  have : kv ∈ o := (List.mem_insertionSort entryLE).mp hm.1
  simpa using this

theorem mem_buildCanonEntries_of_mem {o : Obj} {k : String} {v : JVal}
    (hm : (k, v) ∈ o) (hnf : isFalsy v = false) :
    (k, jvalRender v) ∈ buildCanonEntries o := by
  unfold buildCanonEntries
  refine List.mem_map.mpr ⟨(k, v), List.mem_filter.mpr ⟨?_, by simp [hnf]⟩, rfl⟩
  exact (List.mem_insertionSort entryLE).mpr hm

theorem keysOf_map_render (l : Obj) :
    keysOf (l.map (fun kv => (kv.1, jvalRender kv.2))) = keysOf l := by
  unfold keysOf
  rw [List.map_map]
  rfl

theorem nodup_keysOf_buildCanonEntries {o : Obj} (h : (keysOf o).Nodup) :
    (keysOf (buildCanonEntries o)).Nodup := by
  unfold buildCanonEntries
  rw [keysOf_map_render]
  have h₁ : (keysOf (o.insertionSort entryLE)).Nodup := by
    have := (List.perm_insertionSort entryLE o).map (Prod.fst)
    exact (List.Perm.nodup_iff this).mpr h
  exact List.Nodup.sublist ((List.filter_sublist _).map Prod.fst) h₁

theorem mem_keysOf_buildCanonEntries {o : Obj} {k' : String}
    (h : k' ∈ keysOf (buildCanonEntries o)) : k' ∈ keysOf o := by
  rcases List.mem_map.mp h with ⟨kv', hkv', rfl⟩
  rcases mem_buildCanonEntries hkv' with ⟨v, hm, -, -⟩
  exact List.mem_map_of_mem Prod.fst hm

theorem buildCanonEntries_values_ne_empty {o : Obj} {kv' : String × String}
    (h : kv' ∈ buildCanonEntries o) : kv'.2 ≠ "" := by
  rcases mem_buildCanonEntries h with ⟨v, -, hnf, hrender⟩
  rw [hrender]
  exact jvalRender_ne_empty hnf

/-! Reconstruction on the verify side: feeding the stringified canonical
entries back through the verify-path canonicalization is the identity. -/

theorem keysOf_map_toJVal (l : List (String × String)) :
    keysOf (l.map (fun kv => (kv.1, JVal.str kv.2))) = keysOf l := by
  unfold keysOf
  rw [List.map_map]
  rfl

theorem verifyCanon_of_stringified {ps : List (String × String)}
    (hs : List.Sorted sentryLE ps) (hne : ∀ kv ∈ ps, kv.2 ≠ "") :
    verifyCanonEntries (ps.map (fun kv => (kv.1, JVal.str kv.2))) = ps := by
  unfold verifyCanonEntries
  have hsorted : List.Sorted entryLE (ps.map (fun kv => (kv.1, JVal.str kv.2))) :=
    List.Pairwise.map _ (fun a b hab => hab) hs
  rw [List.Sorted.insertionSort_eq hsorted]
  have hfil : (ps.map (fun kv => (kv.1, JVal.str kv.2))).filter
      (fun kv => !isFalsy kv.2) = ps.map (fun kv => (kv.1, JVal.str kv.2)) := by
    rw [List.filter_eq_self]
    intro kv hkv
    rcases List.mem_map.mp hkv with ⟨kv₀, hkv₀, rfl⟩
    simpa [isFalsy] using hne kv₀ hkv₀
  rw [hfil, List.map_map]
  have : ((fun kv : String × JVal => (kv.1, jvalRender kv.2)) ∘
      (fun kv : String × String => (kv.1, JVal.str kv.2))) = id := by
    funext kv
    rfl
  rw [this, List.map_id]

theorem not_mem_keysOf_buildData {v : VNPay} {cd : String} {payload : Obj} {k : String}
    (hk : k ∉ keysOf payload)
    (hk2 : k ∉ ["vnp_Version", "vnp_Command", "vnp_CurrCode", "vnp_Locale", "vnp_OrderType",
      "vnp_ReturnUrl", "vnp_CreateDate", "vnp_Amount", "vnp_TmnCode"]) :
    k ∉ keysOf (buildData v cd payload) := by
  intro h
  rcases mem_keysOf_buildData h with h | h
  · exact hk h
  · exact hk2 h

theorem verifyWorking_returnQuery {hmac : Hmac} {v : VNPay} {cd : String} {payload : Obj}
    (hns : "vnp_SecureHash" ∉ keysOf payload)
    (hnst : "vnp_SecureHashType" ∉ keysOf payload) :
    verifyWorking (returnQueryOf hmac v cd payload) =
      (buildCanonEntries (buildData v cd payload)).map (fun kv => (kv.1, JVal.str kv.2)) := by
  have hcs : "vnp_SecureHash" ∉ keysOf (buildData v cd payload) :=
    not_mem_keysOf_buildData hns (by decide)
  have hcst : "vnp_SecureHashType" ∉ keysOf (buildData v cd payload) :=
    not_mem_keysOf_buildData hnst (by decide)
  have hkc : ∀ k', k' ∈ keysOf ((buildCanonEntries (buildData v cd payload)).map
      (fun kv => (kv.1, JVal.str kv.2))) → k' ∈ keysOf (buildData v cd payload) := by
    intro k' h
    rw [keysOf_map_toJVal] at h
    exact mem_keysOf_buildCanonEntries h
  unfold verifyWorking returnQueryOf buildUrlPairs
  rw [List.map_append, objDel_append, objDel_append]
  have h₁ : objDel ((buildCanonEntries (buildData v cd payload)).map
      (fun kv => (kv.1, JVal.str kv.2))) "vnp_SecureHash" =
      (buildCanonEntries (buildData v cd payload)).map (fun kv => (kv.1, JVal.str kv.2)) :=
    objDel_eq_self (not_key_of_not_mem_keys fun h => hcs (hkc _ h))
  have h₂ : objDel ([("vnp_SecureHash", buildSecureHash hmac v cd payload)].map
      (fun kv => (kv.1, JVal.str kv.2))) "vnp_SecureHash" = [] := rfl
  rw [h₁, h₂]
  have h₃ : objDel ([] : Obj) "vnp_SecureHashType" = [] := rfl
  rw [h₃, List.append_nil]
  exact objDel_eq_self (not_key_of_not_mem_keys fun h => hcst (hkc _ h))

theorem objGet_returnQuery_hash {hmac : Hmac} {v : VNPay} {cd : String} {payload : Obj}
    (hns : "vnp_SecureHash" ∉ keysOf payload) :
    objGet (returnQueryOf hmac v cd payload) "vnp_SecureHash" =
      .str (buildSecureHash hmac v cd payload) := by
  have hcs : "vnp_SecureHash" ∉ keysOf (buildData v cd payload) :=
    not_mem_keysOf_buildData hns (by decide)
  unfold returnQueryOf buildUrlPairs objGet
  rw [List.map_append, List.find?_append]
  have h₁ : ((buildCanonEntries (buildData v cd payload)).map
      (fun kv => (kv.1, JVal.str kv.2))).find?
        (fun kv => kv.1 == "vnp_SecureHash") = none := by
    rw [List.find?_eq_none]
    intro kv hkv
    intro hbeq
    apply hcs
    have : kv.1 ∈ keysOf ((buildCanonEntries (buildData v cd payload)).map
        (fun kv => (kv.1, JVal.str kv.2))) := List.mem_map_of_mem Prod.fst hkv
    rw [keysOf_map_toJVal] at this
    have hk : kv.1 = "vnp_SecureHash" := by simpa using hbeq
    exact mem_keysOf_buildCanonEntries (hk ▸ this)
  rw [h₁, Option.none_or]
  rfl

theorem objGet_verifyWorking_responseCode {hmac : Hmac} {v : VNPay} {cd : String}
    {payload : Obj}
    (hnd : (keysOf payload).Nodup)
    (hns : "vnp_SecureHash" ∉ keysOf payload)
    (hnst : "vnp_SecureHashType" ∉ keysOf payload)
    (hrc : objGet payload "vnp_ResponseCode" = .str "00") :
    objGet (verifyWorking (returnQueryOf hmac v cd payload)) "vnp_ResponseCode" =
      .str "00" := by
  rw [verifyWorking_returnQuery hns hnst]
  have hdata : objGet (buildData v cd payload) "vnp_ResponseCode" = .str "00" := by
    rw [objGet_buildData_of_payload (by decide) (by decide) (by decide) (by decide)
      (by rw [keysOf_configDefault]; decide)]
    exact hrc
  have hmem : ("vnp_ResponseCode", JVal.str "00") ∈ buildData v cd payload :=
    mem_of_objGet hdata (by decide)
  have hcanon : ("vnp_ResponseCode", "00") ∈ buildCanonEntries (buildData v cd payload) :=
    mem_buildCanonEntries_of_mem hmem (by decide)
  have hmem' : ("vnp_ResponseCode", JVal.str "00") ∈
      (buildCanonEntries (buildData v cd payload)).map (fun kv => (kv.1, JVal.str kv.2)) :=
    List.mem_map.mpr ⟨("vnp_ResponseCode", "00"), hcanon, rfl⟩
  have hnd' : (keysOf ((buildCanonEntries (buildData v cd payload)).map
      (fun kv => (kv.1, JVal.str kv.2)))).Nodup := by
    rw [keysOf_map_toJVal]
    exact nodup_keysOf_buildCanonEntries (nodup_keysOf_buildData hnd)
  exact objGet_of_mem_nodup hnd' hmem'

/-! Structure of the built URL's query segments. -/

theorem keysOf_buildData_safe {v : VNPay} {cd : String} {payload : Obj}
    (hsafe : ∀ k ∈ keysOf payload, k.data.all urlSafeChar = true) :
    ∀ k ∈ keysOf (buildData v cd payload), k.data.all urlSafeChar = true := by
  intro k h
  rcases mem_keysOf_buildData h with h | h
  · exact hsafe k h
  · have hc : ∀ k ∈ ["vnp_Version", "vnp_Command", "vnp_CurrCode", "vnp_Locale",
        "vnp_OrderType", "vnp_ReturnUrl", "vnp_CreateDate", "vnp_Amount", "vnp_TmnCode"],
        k.data.all urlSafeChar = true := by decide
    exact hc k h

theorem segChars_of_safe_key {kv : String × String}
    (hsafe : kv.1.data.all urlSafeChar = true) :
    segChars kv = kv.1.data ++ '=' :: (urlEncode kv.2).data := by
  unfold segChars
  rw [urlEncode_of_safe fun c hc => List.all_eq_true.mp hsafe c hc]

theorem hashParamMark_decompose : hashParamMark = "vnp_SecureHash".data ++ ['='] := by decide

theorem isHashSeg_of_safe_key_false {kv : String × String}
    (hsafe : kv.1.data.all urlSafeChar = true) (hne : ¬ kv.1 = "vnp_SecureHash") :
    isHashSeg (segChars kv) = false := by
  rw [segChars_of_safe_key hsafe]
  unfold isHashSeg
  rw [Bool.eq_false_iff]
  intro htrue
  rw [List.isPrefixOf_iff_prefix, hashParamMark_decompose] at htrue
  have heq : '=' ∉ kv.1.data := by
    intro hin
    have := List.all_eq_true.mp hsafe '=' hin
    revert this
    decide
  have := (prefix_sep_iff '=' "vnp_SecureHash".data kv.1.data
    (urlEncode kv.2).data (by decide) heq).mp htrue
  exact hne (String.ext this).symm

theorem urlEncode_hashKey : urlEncode "vnp_SecureHash" = "vnp_SecureHash" := by decide

theorem segChars_hashPair {s : String} (hhex : s.data.all isLowerHexChar = true) :
    segChars ("vnp_SecureHash", s) = hashParamMark ++ s.data := by
  unfold segChars
  rw [show (("vnp_SecureHash", s) : String × String).1 = "vnp_SecureHash" from rfl,
    show (("vnp_SecureHash", s) : String × String).2 = s from rfl,
    urlEncode_hashKey, urlEncode_of_lowerHex hhex, hashParamMark_decompose,
    List.append_assoc]
  rfl

theorem isHashSeg_hashPair (l : List Char) : isHashSeg (hashParamMark ++ l) = true := by
  unfold isHashSeg
  rw [List.isPrefixOf_iff_prefix]
  exact List.prefix_append _ _

theorem buildUrlPairs_ne_nil (hmac : Hmac) (v : VNPay) (cd : String) (payload : Obj) :
    buildUrlPairs hmac v cd payload ≠ [] := by
  unfold buildUrlPairs
  simp

theorem querySegsOf_buildUrl {hmac : Hmac} {v : VNPay} {cd : String} {payload : Obj}
    (hq : '?' ∉ v.globalConfig.paymentGateway.data) :
    querySegsOf (buildUrl hmac v cd payload) =
      (buildCanonEntries (buildData v cd payload)).map segChars ++
        [segChars ("vnp_SecureHash", buildSecureHash hmac v cd payload)] := by
  unfold buildUrl
  rw [querySegsOf_urlOf hq (buildUrlPairs_ne_nil hmac v cd payload)]
  unfold buildUrlPairs
  rw [List.map_append]
  rfl

theorem toStringOrThrow_eq_some {v : JVal} (h₁ : v ≠ .null) (h₂ : v ≠ .undefined) :
    toStringOrThrow v = some (jvalRender v) := by
  cases v with
  | null => exact absurd rfl h₁
  | undefined => exact absurd rfl h₂
  | str s => rfl
  | num n => rfl
  | bool b => rfl
  | nan => rfl

theorem filter_key_of_mem_nodup {α : Type} :
    ∀ {l : List (String × α)}, (keysOf l).Nodup → ∀ {k : String} {x : α}, (k, x) ∈ l →
      l.filter (fun kv => kv.1 == k) = [(k, x)]
  | [], _, _, _, hm => absurd hm (List.not_mem_nil _)
  | a :: l, hnd, k, x, hm => by
    rcases List.mem_cons.mp hm with rfl | hm
    · have hk : k ∉ keysOf l := (List.nodup_cons.mp hnd).1
      rw [List.filter_cons]
      simp only [beq_self_eq_true, if_true]
      have : l.filter (fun kv => kv.1 == k) = [] := by
        rw [List.filter_eq_nil_iff]
        intro kv hkv
        simpa using not_key_of_not_mem_keys hk kv hkv
      rw [this]
    · have hka : ¬ a.1 = k := by
        intro hak
        have hmem : k ∈ keysOf l := List.mem_map_of_mem Prod.fst hm
        have := (List.nodup_cons.mp hnd).1
        rw [hak] at this
        exact this hmem
      rw [List.filter_cons, if_neg (by simpa using hka)]
      exact filter_key_of_mem_nodup (List.nodup_cons.mp hnd).2 hm

/-! Claim theorems. -/

/-- C3: for every valid config and every return query that carries a
response-code value but whose provided signature differs from the
signature recomputed over the remaining fields, `verifyReturnUrl` resolves
(it does not reject) with `isSuccess = false` and the message exactly
`Wrong checksum`, regardless of the response-code value (even `"00"`). -/
theorem claim_C3_wrongChecksum (hmac : Hmac) (v : VNPay) (q : Obj) (rc : JVal)
    (hv : validateGlobalConfig v = none)
    (hrc : objGet (verifyWorking q) "vnp_ResponseCode" = rc)
    (hrc₁ : rc ≠ .null) (hrc₂ : rc ≠ .undefined)
    (hsig : ¬ objGet q "vnp_SecureHash" = JVal.str (verifyRecomputedHash hmac v q)) :
    verifyReturnUrl hmac v q = .ok ⟨verifyWorking q, false, "Wrong checksum"⟩ := by
  simp only [verifyReturnUrl, hv, hrc, toStringOrThrow_eq_some hrc₁ hrc₂, if_neg hsig]

/-- C3 witness: a concrete mismatched query (response code `"00"`, wrong
signature) resolves to `Wrong checksum` with `isSuccess = false`. -/
theorem claim_C3_wrongChecksum_witness :
    validateGlobalConfig sampleVNPay = none
    ∧ objGet (verifyWorking [("vnp_ResponseCode", JVal.str "00"),
        ("vnp_SecureHash", JVal.str "beef")]) "vnp_ResponseCode" = JVal.str "00"
    ∧ ¬ objGet [("vnp_ResponseCode", JVal.str "00"), ("vnp_SecureHash", JVal.str "beef")]
        "vnp_SecureHash" =
        JVal.str (verifyRecomputedHash sampleHmac sampleVNPay
          [("vnp_ResponseCode", JVal.str "00"), ("vnp_SecureHash", JVal.str "beef")])
    ∧ verifyReturnUrl sampleHmac sampleVNPay
        [("vnp_ResponseCode", JVal.str "00"), ("vnp_SecureHash", JVal.str "beef")] =
        .ok ⟨verifyWorking [("vnp_ResponseCode", JVal.str "00"),
          ("vnp_SecureHash", JVal.str "beef")], false, "Wrong checksum"⟩ :=
  ⟨by decide, by decide, by decide,
    claim_C3_wrongChecksum sampleHmac sampleVNPay
      [("vnp_ResponseCode", JVal.str "00"), ("vnp_SecureHash", JVal.str "beef")]
      (JVal.str "00") (by decide) (by decide) (by decide) (by decide) (by decide)⟩

/-- C10: with a valid config, a return query whose `vnp_ResponseCode` is
absent (or `undefined`) does not resolve to a verification result: the
`toString()` call on the missing field throws, so the promise rejects. -/
theorem claim_C10_missingResponseCode (hmac : Hmac) (v : VNPay) (q : Obj)
    (hv : validateGlobalConfig v = none)
    (hrc : objGet q "vnp_ResponseCode" = .undefined) :
    verifyReturnUrl hmac v q = .error .responseCodeTypeError := by
  have hwork : objGet (verifyWorking q) "vnp_ResponseCode" = .undefined := by
    unfold verifyWorking
    rw [objGet_objDel_ne _ _ _ (by decide), objGet_objDel_ne _ _ _ (by decide)]
    exact hrc
  simp only [verifyReturnUrl, hv, hwork, toStringOrThrow]

/-- C10 witness: verifying an empty query under the sample config rejects
with the response-code `TypeError`. -/
theorem claim_C10_missingResponseCode_witness :
    validateGlobalConfig sampleVNPay = none
    ∧ objGet ([] : Obj) "vnp_ResponseCode" = JVal.undefined
    ∧ verifyReturnUrl sampleHmac sampleVNPay [] = .error .responseCodeTypeError :=
  ⟨by decide, by decide,
    claim_C10_missingResponseCode sampleHmac sampleVNPay [] (by decide) (by decide)⟩

/-- C4: the schema validation of the merged payload does not gate the
returned URL.  The executor resolves the signed URL synchronously (line
175); the detached `validate(...).then` callback attempts its `reject`
only afterwards, so even when the validator reports violated fields the
promise is already fulfilled with the URL: the settle sequence is
`resolve(url)` then `reject(ValidationError)`, and the promise outcome is
the URL. -/
theorem claim_C4_validationRace :
    (buildPaymentUrl sampleHmac sampleFailValidator "20240101120000" sampleVNPay
        samplePayload).settles =
      [.ok (buildUrl sampleHmac sampleVNPay "20240101120000" samplePayload),
       .error (.validationError ["vnp_Amount must be a positive number"])]
    ∧ promiseOutcome (buildPaymentUrl sampleHmac sampleFailValidator "20240101120000"
        sampleVNPay samplePayload) =
      some (.ok (buildUrl sampleHmac sampleVNPay "20240101120000" samplePayload)) :=
  ⟨rfl, rfl⟩

/-- C9 counterexample: `buildPaymentUrl` mutates the caller's payload.
With the sample config (which has a default return URL) and a payload
lacking `vnp_ReturnUrl`, the payload object after the call differs from
the payload passed in (line 139 wrote the config's return URL into it). -/
theorem claim_C9_counterexample :
    (buildPaymentUrl sampleHmac (fun _ => []) "20240101120000" sampleVNPay
        [("vnp_Amount", .num 100000)]).payloadAfter ≠
      [("vnp_Amount", JVal.num 100000)] := by decide

/-- C9 (amended): a `buildPaymentUrl` call's only side effect on the
caller is that, when config validation passes and the payload's
`vnp_ReturnUrl` is falsy, the config's default return URL is written into
the payload's `vnp_ReturnUrl` field; in every other case the payload is
returned unchanged. -/
theorem claim_C9_payloadMutation (hmac : Hmac) (val : PayloadValidator) (cd : String)
    (v : VNPay) (payload : Obj) :
    (buildPaymentUrl hmac val cd v payload).payloadAfter =
      if validateGlobalConfig v = none ∧ isFalsy (objGet payload "vnp_ReturnUrl") = true
      then objSet payload "vnp_ReturnUrl" v.globalConfig.returnUrl
      else payload := by
  unfold buildPaymentUrl
  cases hv : validateGlobalConfig v with
  | some msg => simp [hv]
  | none =>
    unfold buildPayloadAfter
    by_cases hf : isFalsy (objGet payload "vnp_ReturnUrl") = true
    · simp [hv, hf]
    · simp [hv, hf]

/-- C5: when the secret, the merchant code, or the gateway base URL is
missing, `buildPaymentUrl` rejects with the config error naming the first
missing field in the order secret, merchant code, gateway — and it does so
before any signature is computed: the whole call is independent of the
signing oracle, so no signature-bearing output is produced. -/
theorem claim_C5_configErrors (hmac hmac' : Hmac) (val : PayloadValidator) (cd : String)
    (v : VNPay) (payload : Obj)
    (h : v.globalConfig.secureSecret = "" ∨ v.globalConfig.tmnCode = "" ∨
      v.globalConfig.paymentGateway = "") :
    promiseOutcome (buildPaymentUrl hmac val cd v payload) =
      some (.error (.configError
        (if v.globalConfig.secureSecret = "" then "Missing secure secret"
         else if v.globalConfig.tmnCode = "" then "Missing merchant code"
         else "Missing payment gateway")))
    ∧ buildPaymentUrl hmac val cd v payload = buildPaymentUrl hmac' val cd v payload := by
  have hv : validateGlobalConfig v = some
      (if v.globalConfig.secureSecret = "" then "Missing secure secret"
       else if v.globalConfig.tmnCode = "" then "Missing merchant code"
       else "Missing payment gateway") := by
    unfold validateGlobalConfig
    by_cases h₁ : v.globalConfig.secureSecret = ""
    · simp [h₁]
    · by_cases h₂ : v.globalConfig.tmnCode = ""
      · simp [h₁, h₂]
      · have h₃ : v.globalConfig.paymentGateway = "" := by tauto
        simp [h₁, h₂, h₃]
  constructor
  · simp only [buildPaymentUrl, promiseOutcome, hv]
    rfl
  · simp only [buildPaymentUrl, hv]

/-- C5 witness: a config whose merchant code is missing (but whose secret
is present) rejects with `Missing merchant code` under any two signing
oracles identically. -/
theorem claim_C5_configErrors_witness :
    (⟨⟨"s", "", "http://gw", .undefined⟩, "2.1.0", "pay", "VND",
        VnpLocale.vn, "other"⟩ : VNPay).globalConfig.tmnCode = ""
    ∧ promiseOutcome (buildPaymentUrl sampleHmac (fun _ => []) "20240101120000"
        ⟨⟨"s", "", "http://gw", .undefined⟩, "2.1.0", "pay", "VND", VnpLocale.vn, "other"⟩ []) =
      some (.error (.configError "Missing merchant code"))
    ∧ buildPaymentUrl sampleHmac (fun _ => []) "20240101120000"
        ⟨⟨"s", "", "http://gw", .undefined⟩, "2.1.0", "pay", "VND", VnpLocale.vn, "other"⟩ [] =
      buildPaymentUrl (fun _ _ => "other") (fun _ => []) "20240101120000"
        ⟨⟨"s", "", "http://gw", .undefined⟩, "2.1.0", "pay", "VND", VnpLocale.vn, "other"⟩ [] := by
  refine ⟨rfl, ?_, ?_⟩
  · have h := claim_C5_configErrors sampleHmac (fun _ _ => "other") (fun _ => [])
      "20240101120000"
      ⟨⟨"s", "", "http://gw", .undefined⟩, "2.1.0", "pay", "VND", VnpLocale.vn, "other"⟩ []
      (Or.inr (Or.inl rfl))
    exact h.1
  · have h := claim_C5_configErrors sampleHmac (fun _ _ => "other") (fun _ => [])
      "20240101120000"
      ⟨⟨"s", "", "http://gw", .undefined⟩, "2.1.0", "pay", "VND", VnpLocale.vn, "other"⟩ []
      (Or.inr (Or.inl rfl))
    exact h.2

/-- C6: the amount field carried by the built URL (and signed) is the
integer exactly 100 times the caller-supplied major-unit amount: the
merged data holds `100 * a`, and the unique `vnp_Amount` query parameter
is its decimal rendering. -/
theorem claim_C6_amountScaling (hmac : Hmac) (v : VNPay) (cd : String) (payload : Obj)
    (a : Int) (hnd : (keysOf payload).Nodup)
    (ha : objGet payload "vnp_Amount" = .num a) (hpos : 0 < a) :
    objGet (buildData v cd payload) "vnp_Amount" = .num (100 * a)
    ∧ (buildUrlPairs hmac v cd payload).filter (fun kv => kv.1 == "vnp_Amount") =
        [("vnp_Amount", toString (100 * a))] := by
  have hdata : objGet (buildData v cd payload) "vnp_Amount" = .num (100 * a) := by
    rw [objGet_buildData_amount, ha]
    unfold jvalMul100
    rw [Int.mul_comm]
  refine ⟨hdata, ?_⟩
  unfold buildUrlPairs
  rw [List.filter_append]
  have hmem : ("vnp_Amount", JVal.num (100 * a)) ∈ buildData v cd payload :=
    mem_of_objGet hdata (fun h => JVal.noConfusion h)
  have hnf : isFalsy (JVal.num (100 * a)) = false := by
    have hne : ¬ (100 * a = 0) := by omega
    simpa [isFalsy] using hne
  have hcanon : ("vnp_Amount", jvalRender (JVal.num (100 * a))) ∈
      buildCanonEntries (buildData v cd payload) :=
    mem_buildCanonEntries_of_mem hmem hnf
  have hC : (buildCanonEntries (buildData v cd payload)).filter
      (fun kv => kv.1 == "vnp_Amount") = [("vnp_Amount", toString (100 * a))] :=
    filter_key_of_mem_nodup
      (nodup_keysOf_buildCanonEntries (nodup_keysOf_buildData hnd)) hcanon
  have hlast : ([("vnp_SecureHash", buildSecureHash hmac v cd payload)]).filter
      (fun kv : String × String => kv.1 == "vnp_Amount") = [] := rfl
  rw [hC, hlast, List.append_nil]

/-- C6 witness: the sample payload amount 100000 produces the signed
`vnp_Amount` field `"10000000"`. -/
theorem claim_C6_amountScaling_witness :
    (keysOf samplePayload).Nodup
    ∧ objGet samplePayload "vnp_Amount" = JVal.num 100000
    ∧ objGet (buildData sampleVNPay "20240101120000" samplePayload) "vnp_Amount" =
        JVal.num 10000000
    ∧ (buildUrlPairs sampleHmac sampleVNPay "20240101120000" samplePayload).filter
        (fun kv => kv.1 == "vnp_Amount") = [("vnp_Amount", "10000000")] := by
  have h := claim_C6_amountScaling sampleHmac sampleVNPay "20240101120000" samplePayload
    100000 (by decide) (by decide) (by decide)
  exact ⟨by decide, by decide, h.1, h.2⟩

set_option maxRecDepth 8192 in
/-- C7: `getResponseByStatusCode` returns the catalog message by exact
match on the response code, and any code outside the catalog resolves to
the default entry's message in the requested locale; in particular
`("00", vn)`, `("00", en)` and the fallback `("999", en)` give the three
quoted strings. -/
theorem claim_C7_statusCodeCatalog :
    (∀ e ∈ responseMap, getResponseByStatusCode e.1 .vn = e.2.1 ∧
      getResponseByStatusCode e.1 .en = e.2.2)
    ∧ (∀ code locale, code ∉ responseMap.map (fun e => e.1) →
        getResponseByStatusCode code locale =
          localePick locale ("Giao dịch thất bại", "Failure"))
    ∧ getResponseByStatusCode "00" .vn = "Giao dịch thành công"
    ∧ getResponseByStatusCode "00" .en = "Approved"
    ∧ getResponseByStatusCode "999" .en = "Failure" := by
  refine ⟨by decide, ?_, by decide, by decide, by decide⟩
  intro code locale hcode
  unfold getResponseByStatusCode
  have hnone : responseMap.find? (fun e => e.1 == code) = none := by
    rw [List.find?_eq_none]
    intro e he hbeq
    exact hcode (List.mem_map.mpr ⟨e, he, by simpa using hbeq⟩)
  rw [hnone]
  cases locale <;> rfl

set_option maxRecDepth 8192 in
/-- C7 witness: catalog hit for code `"01"` and catalog miss for code
`"999"`, through the theorem. -/
theorem claim_C7_statusCodeCatalog_witness :
    (("01", ("Giao dịch đã tồn tại", "Transaction is already exist")) ∈ responseMap
      ∧ getResponseByStatusCode "01" .vn = "Giao dịch đã tồn tại")
    ∧ ("999" ∉ responseMap.map (fun e => e.1)
      ∧ getResponseByStatusCode "999" .vn = "Giao dịch thất bại") := by
  have h := claim_C7_statusCodeCatalog
  exact ⟨⟨by decide,
    (h.1 ("01", ("Giao dịch đã tồn tại", "Transaction is already exist")) (by decide)).1⟩,
    ⟨by decide, h.2.1 "999" .vn (by decide)⟩⟩

/-- C2: canonicalization is the same function on the build and verify
paths; over the spec's value domain (everything but the artifact `NaN`) it
drops an entry exactly when the value is `null`, `undefined`, `""`, `0`,
or `false`; and for such a falsy value, a query containing the entry and
one omitting it yield the same recomputed signature. -/
theorem claim_C2_falsyExclusion (o l₁ l₂ : Obj) (k : String) (v : JVal) (hmac : Hmac)
    (secret : String) (hnan : v ≠ .nan) :
    verifyCanonEntries o = buildCanonEntries o
    ∧ (buildCanonEntries (l₁ ++ (k, v) :: l₂) = buildCanonEntries (l₁ ++ l₂) ↔
        (v = .null ∨ v = .undefined ∨ v = .str "" ∨ v = .num 0 ∨ v = .bool false))
    ∧ ((v = .null ∨ v = .undefined ∨ v = .str "" ∨ v = .num 0 ∨ v = .bool false) →
        hmac secret (renderQuery (verifyCanonEntries (l₁ ++ (k, v) :: l₂))) =
          hmac secret (renderQuery (verifyCanonEntries (l₁ ++ l₂)))) := by
  have hfalsy_iff : isFalsy v = true ↔
      (v = .null ∨ v = .undefined ∨ v = .str "" ∨ v = .num 0 ∨ v = .bool false) := by
    cases v with
    | str s => simp [isFalsy]
    | num n => simp [isFalsy]
    | bool b => simp [isFalsy]
    | null => simp [isFalsy]
    | undefined => simp [isFalsy]
    | nan => exact absurd rfl hnan
  refine ⟨rfl,
    ⟨?_, fun hfive => buildCanonEntries_middle l₁ l₂ k v (hfalsy_iff.mpr hfive)⟩, ?_⟩
  · intro heq
    by_contra hnot
    have hF : isFalsy v = false := by
      cases hiv : isFalsy v
      · rfl
      · exact absurd (hfalsy_iff.mp hiv) hnot
    have h₁ := length_buildCanonEntries (l₁ ++ (k, v) :: l₂)
    have h₂ := length_buildCanonEntries (l₁ ++ l₂)
    rw [heq] at h₁
    rw [List.countP_append, List.countP_cons] at h₁
    rw [List.countP_append] at h₂
    simp only [hF, Bool.not_false] at h₁
    simp at h₁
    omega
  · intro hfive
    rw [verifyCanonEntries_eq_build, verifyCanonEntries_eq_build,
      buildCanonEntries_middle l₁ l₂ k v (hfalsy_iff.mpr hfive)]

/-- C2 witness: the theorem instantiated at a concrete mapping with a
zero-valued field appended. -/
theorem claim_C2_falsyExclusion_witness :
    (JVal.num 0 ≠ JVal.nan)
    ∧ (verifyCanonEntries [("b", JVal.str "x")] = buildCanonEntries [("b", JVal.str "x")]
      ∧ (buildCanonEntries ([("a", JVal.num 7)] ++ ("z", JVal.num 0) :: []) =
          buildCanonEntries ([("a", JVal.num 7)] ++ []) ↔
        (JVal.num 0 = .null ∨ JVal.num 0 = .undefined ∨ JVal.num 0 = .str "" ∨
          JVal.num 0 = .num 0 ∨ JVal.num 0 = .bool false))
      ∧ ((JVal.num 0 = .null ∨ JVal.num 0 = .undefined ∨ JVal.num 0 = .str "" ∨
          JVal.num 0 = .num 0 ∨ JVal.num 0 = .bool false) →
          sampleHmac "s" (renderQuery (verifyCanonEntries
            ([("a", JVal.num 7)] ++ ("z", JVal.num 0) :: []))) =
            sampleHmac "s" (renderQuery (verifyCanonEntries ([("a", JVal.num 7)] ++ []))))) :=
  ⟨by decide,
    claim_C2_falsyExclusion [("b", JVal.str "x")] [("a", JVal.num 7)] [] "z" (JVal.num 0)
      sampleHmac "s" (by decide)⟩

/-- C8: under a valid config, `buildPaymentUrl` resolves with the URL
whose query is the canonical entries sorted ascending by key followed by
the appended `vnp_SecureHash` parameter; the signature value is a
128-character lowercase-hex string (given that the HMAC-SHA512 hex oracle
produces such digests) and percent-encoding leaves it untouched, so it
appears verbatim in the URL. -/
theorem claim_C8_urlShape (hmac : Hmac) (val : PayloadValidator) (v : VNPay)
    (cd : String) (payload : Obj)
    (hv : validateGlobalConfig v = none)
    (hhex : ∀ key m, (hmac key m).length = 128 ∧ (hmac key m).data.all isLowerHexChar = true) :
    promiseOutcome (buildPaymentUrl hmac val cd v payload) =
      some (.ok (urlOf v.globalConfig.paymentGateway
        (buildCanonEntries (buildData v cd payload) ++
          [("vnp_SecureHash", buildSecureHash hmac v cd payload)])))
    ∧ List.Sorted sentryLE (buildCanonEntries (buildData v cd payload))
    ∧ (buildSecureHash hmac v cd payload).length = 128
    ∧ (buildSecureHash hmac v cd payload).data.all isLowerHexChar = true
    ∧ urlEncode (buildSecureHash hmac v cd payload) = buildSecureHash hmac v cd payload := by
  refine ⟨?_, sorted_buildCanonEntries _, (hhex _ _).1, (hhex _ _).2,
    urlEncode_of_lowerHex (hhex _ _).2⟩
  simp only [buildPaymentUrl, promiseOutcome, hv, List.singleton_append, List.head?_cons]
  rfl

set_option maxRecDepth 8192 in
/-- C8 witness: the theorem instantiated at the sample fixtures. -/
theorem claim_C8_urlShape_witness :
    validateGlobalConfig sampleVNPay = none
    ∧ (∀ key m, (sampleHmac key m).length = 128 ∧
        (sampleHmac key m).data.all isLowerHexChar = true)
    ∧ promiseOutcome (buildPaymentUrl sampleHmac (fun _ => []) "20240101120000"
        sampleVNPay samplePayload) =
      some (.ok (urlOf sampleVNPay.globalConfig.paymentGateway
        (buildCanonEntries (buildData sampleVNPay "20240101120000" samplePayload) ++
          [("vnp_SecureHash",
            buildSecureHash sampleHmac sampleVNPay "20240101120000" samplePayload)])))
    ∧ List.Sorted sentryLE
        (buildCanonEntries (buildData sampleVNPay "20240101120000" samplePayload))
    ∧ (buildSecureHash sampleHmac sampleVNPay "20240101120000" samplePayload).length = 128 := by
  have hlen : (⟨List.replicate 128 'a'⟩ : String).length = 128 := by decide
  have hhexa : (⟨List.replicate 128 'a'⟩ : String).data.all isLowerHexChar = true := by decide
  have h := claim_C8_urlShape sampleHmac (fun _ => []) sampleVNPay "20240101120000"
    samplePayload (by decide) (fun _ _ => ⟨hlen, hhexa⟩)
  exact ⟨by decide, fun _ _ => ⟨hlen, hhexa⟩, h.1, h.2.1, h.2.2.1⟩

/-- C1: for a valid config and a valid payload (schema-shaped keys, no
caller-supplied signature fields), the `vnp_SecureHash` value appended to
the built URL is exactly the HMAC-SHA512 hex digest, keyed with the
config's secret, of the URL's query string with the `vnp_SecureHash`
parameter removed; consequently `verifyReturnUrl` applied to the
parameters of a freshly built URL carrying response code `"00"` resolves
with `isSuccess = true`. -/
theorem claim_C1_signatureRoundTrip (hmac : Hmac) (v : VNPay) (cd : String) (payload : Obj)
    (hv : validateGlobalConfig v = none)
    (hq : '?' ∉ v.globalConfig.paymentGateway.data)
    (hsafe : ∀ k ∈ keysOf payload, k.data.all urlSafeChar = true)
    (hnd : (keysOf payload).Nodup)
    (hns : "vnp_SecureHash" ∉ keysOf payload)
    (hnst : "vnp_SecureHashType" ∉ keysOf payload)
    (hhex : ∀ key m, (hmac key m).data.all isLowerHexChar = true)
    (hrc : objGet payload "vnp_ResponseCode" = .str "00") :
    extractedSecureHash (buildUrl hmac v cd payload) =
      hmac v.globalConfig.secureSecret (queryWithoutSecureHash (buildUrl hmac v cd payload))
    ∧ (verifyReturnUrl hmac v (returnQueryOf hmac v cd payload)).map
        (fun r => r.isSuccess) = .ok true := by
  have hsegs := @querySegsOf_buildUrl hmac v cd payload hq
  have hhseg : segChars ("vnp_SecureHash", buildSecureHash hmac v cd payload) =
      hashParamMark ++ (buildSecureHash hmac v cd payload).data :=
    segChars_hashPair (hhex _ _)
  have hcanonseg : ∀ kv ∈ buildCanonEntries (buildData v cd payload),
      isHashSeg (segChars kv) = false := by
    intro kv hkv
    have hkey : kv.1 ∈ keysOf (buildData v cd payload) :=
      mem_keysOf_buildCanonEntries (List.mem_map_of_mem Prod.fst hkv)
    apply isHashSeg_of_safe_key_false (keysOf_buildData_safe hsafe kv.1 hkey)
    intro hk
    exact not_mem_keysOf_buildData hns (by decide) (hk ▸ hkey)
  have hfilterpos : ((buildCanonEntries (buildData v cd payload)).map segChars ++
      [segChars ("vnp_SecureHash", buildSecureHash hmac v cd payload)]).filter isHashSeg =
      [hashParamMark ++ (buildSecureHash hmac v cd payload).data] := by
    rw [List.filter_append]
    have h₁ : ((buildCanonEntries (buildData v cd payload)).map segChars).filter
        isHashSeg = [] := by
      rw [List.filter_eq_nil_iff]
      intro l hl
      rcases List.mem_map.mp hl with ⟨kv, hkv, rfl⟩
      simp [hcanonseg kv hkv]
    rw [h₁, hhseg]
    simp [List.filter_cons, isHashSeg_hashPair]
  have hfilterneg : ((buildCanonEntries (buildData v cd payload)).map segChars ++
      [segChars ("vnp_SecureHash", buildSecureHash hmac v cd payload)]).filter
        (fun l => !isHashSeg l) =
      (buildCanonEntries (buildData v cd payload)).map segChars := by
    rw [List.filter_append]
    have h₁ : ((buildCanonEntries (buildData v cd payload)).map segChars).filter
        (fun l => !isHashSeg l) =
        (buildCanonEntries (buildData v cd payload)).map segChars := by
      rw [List.filter_eq_self]
      intro l hl
      rcases List.mem_map.mp hl with ⟨kv, hkv, rfl⟩
      simp [hcanonseg kv hkv]
    have h₂ : ([segChars ("vnp_SecureHash", buildSecureHash hmac v cd payload)]).filter
        (fun l => !isHashSeg l) = [] := by
      rw [hhseg]
      simp [List.filter_cons, isHashSeg_hashPair]
    rw [h₁, h₂, List.append_nil]
  constructor
  · unfold extractedSecureHash queryWithoutSecureHash
    rw [hsegs, hfilterpos, hfilterneg, List.headD_cons, List.drop_left]
    rfl
  · have hwork := @verifyWorking_returnQuery hmac v cd payload hns hnst
    have hrc2 : objGet (verifyWorking (returnQueryOf hmac v cd payload))
        "vnp_ResponseCode" = .str "00" :=
      objGet_verifyWorking_responseCode hnd hns hnst hrc
    have hsig : verifyRecomputedHash hmac v (returnQueryOf hmac v cd payload) =
        buildSecureHash hmac v cd payload := by
      unfold verifyRecomputedHash verifySignedMaterial
      rw [hwork, verifyCanon_of_stringified (sorted_buildCanonEntries _)
        (fun kv h => buildCanonEntries_values_ne_empty h)]
      rfl
    have hhash := @objGet_returnQuery_hash hmac v cd payload hns
    have hcond : objGet (returnQueryOf hmac v cd payload) "vnp_SecureHash" =
        JVal.str (verifyRecomputedHash hmac v (returnQueryOf hmac v cd payload)) := by
      rw [hhash, hsig]
    simp only [verifyReturnUrl, hv, hrc2, toStringOrThrow, if_pos hcond]
    simp [Except.map]

set_option maxRecDepth 8192 in
/-- C1 witness: the full build-then-verify round trip on the sample
fixtures, discharging every hypothesis concretely. -/
theorem claim_C1_signatureRoundTrip_witness :
    validateGlobalConfig sampleVNPay = none
    ∧ '?' ∉ sampleVNPay.globalConfig.paymentGateway.data
    ∧ (∀ k ∈ keysOf samplePayload, k.data.all urlSafeChar = true)
    ∧ (keysOf samplePayload).Nodup
    ∧ "vnp_SecureHash" ∉ keysOf samplePayload
    ∧ "vnp_SecureHashType" ∉ keysOf samplePayload
    ∧ (∀ key m, (sampleHmac key m).data.all isLowerHexChar = true)
    ∧ objGet samplePayload "vnp_ResponseCode" = JVal.str "00"
    ∧ extractedSecureHash (buildUrl sampleHmac sampleVNPay "20240101120000" samplePayload) =
        sampleHmac sampleVNPay.globalConfig.secureSecret
          (queryWithoutSecureHash
            (buildUrl sampleHmac sampleVNPay "20240101120000" samplePayload))
    ∧ (verifyReturnUrl sampleHmac sampleVNPay
        (returnQueryOf sampleHmac sampleVNPay "20240101120000" samplePayload)).map
        (fun r => r.isSuccess) = .ok true := by
  have hhexa : (⟨List.replicate 128 'a'⟩ : String).data.all isLowerHexChar = true := by
    decide
  have h := claim_C1_signatureRoundTrip sampleHmac sampleVNPay "20240101120000"
    samplePayload (by decide) (by decide) (by decide) (by decide) (by decide) (by decide)
    (fun _ _ => hhexa) (by decide)
  exact ⟨by decide, by decide, by decide, by decide, by decide, by decide,
    fun _ _ => hhexa, by decide, h.1, h.2⟩

end VNPaySpec
